import Mathlib

/-!
# Verification development for the rift tiling window-manager core

Shallow embedding of the state-reconciliation engine ("Reactor") and the
layout engine of the rift repository, together with proofs about the
embedded operations.

Conventions:
* Pure Rust functions become Lean functions on explicit state values.
* `f64` quantities (scroll offsets, rectangle coordinates, ratios) are
  modelled as rationals `ℚ`; the only place where floating-point rounding
  is semantically relevant to a proved statement (the `as i64` cast of an
  intersection area in `Reactor::best_space_for_frame`) is modelled
  explicitly with an integer floor.
* Container/tree primitives of `model/tree.rs` and the geometry helpers of
  `sys/geometry.rs` are not part of the sources under verification; where
  an embedded operation needs them they are modelled from the spec, and
  each such definition carries a doc comment saying so.
-/

namespace Rift

/-- `WindowId` from `actor/app`: stable identity `(pid, per-process index)`.
The Rust type derives `Ord` with field order `(pid, idx)`. -/
structure WindowId where
  pid : Int
  idx : Nat
deriving DecidableEq

/-- Lexicographic strict order on `WindowId`, matching the derived Rust `Ord`. -/
def WindowId.wlt (a b : WindowId) : Bool :=
  a.pid < b.pid || (a.pid = b.pid && a.idx < b.idx)

/-- Lexicographic non-strict order on `WindowId`, matching the derived Rust `Ord`. -/
def WindowId.wle (a b : WindowId) : Bool :=
  a.pid < b.pid || (a.pid = b.pid && a.idx ≤ b.idx)

/-- `layout_engine::Direction`. -/
inductive Direction where
  | left | right | up | down
deriving DecidableEq

/-- `Direction::orientation()`: left/right are horizontal, up/down vertical.
`true` means horizontal. -/
def Direction.isHorizontal : Direction → Bool
  | .left | .right => true
  | .up | .down => false

/-- `Vec::iter().position(...)` / `indexOf?`: index of the first occurrence
of a window in a list. -/
def idxOf? (w : WindowId) : List WindowId → Option Nat
  | [] => none
  | x :: xs => if x = w then some 0 else (idxOf? w xs).map (· + 1)

/-! ## Master-Stack layout system (`layout_engine/systems/master_stack.rs`)

The Master-Stack system keeps each layout as a root with exactly two flat
containers (master, stack); every public mutation first runs
`ensure_structure`, which rebuilds the tree into that shape if anything
else is found.  The tree primitive itself (`model/tree.rs`) is not among
the sources; following the spec ("arena of nodes; split containers with
ordered children"), a flat container is modelled as the ordered list of
its windows, so that `push_back` appends, `insert_before(first_child)`
prepends, and `detach` removes.  `ensure_structure` is the identity on
this representation because the two-flat-container shape always holds. -/

/-- `MasterStackSide` from the configuration (modelled from the spec:
`common/config.rs` is not among the sources; the spec lists the four
sides left/right/top/bottom). -/
inductive MasterStackSide where
  | left | right | top | bottom
deriving DecidableEq

/-- `MasterStackNewWindowPlacement` (modelled from the spec: always-master,
always-stack, or "the container currently holding focus"). -/
inductive MasterStackNewWindowPlacement where
  | master | stack | focused
deriving DecidableEq

/-- The parts of `MasterStackSettings` that the embedded operations read. -/
structure MasterStackSettings where
  master_count : Nat
  new_window_placement : MasterStackNewWindowPlacement
  master_side : MasterStackSide
deriving DecidableEq

/-- One Master-Stack layout: the ordered windows of the master container and
of the stack container, the selected window, and the set of windows whose
tree node is marked fullscreen (`layout.info[node].is_fullscreen`). -/
structure MSLayout where
  master : List WindowId
  stack : List WindowId
  selected : Option WindowId
  fullscreen : List WindowId
deriving DecidableEq

/-- Total number of windows in the layout. -/
def MSLayout.total (l : MSLayout) : Nat := l.master.length + l.stack.length

/-- `MasterStackLayoutSystem::enforce_master_count`.  First, if the master
container is empty and the stack is not, the head of the stack is moved to
the master (`move_window_to_container`, which appends).  Then, with
`desired = settings.master_count`: if the master holds more than `desired`
windows the overflow `master[desired..]` is moved window by window, in
reverse, to the *front* of the stack (net effect: the overflow block is
prepended in its original order); if it holds fewer, the missing windows
are drained from the head of the stack and appended to the master. -/
def enforce_master_count (desired : Nat) (l : MSLayout) : MSLayout :=
  let ms : List WindowId × List WindowId :=
    match l.master, l.stack with
    | [], s0 :: srest => ([s0], srest)
    | m, s => (m, s)
  let m := ms.1
  let s := ms.2
  if desired < m.length then
    { l with master := m.take desired, stack := m.drop desired ++ s }
  else if m.length < desired then
    { l with master := m ++ s.take (desired - m.length),
             stack := s.drop (desired - m.length) }
  else
    { l with master := m, stack := s }

/-- `MasterStackLayoutSystem::focused_container`: the container holding the
selected window (`true` = master), or `none` when there is no selection or
the selected window is in neither container. -/
def focused_container (l : MSLayout) : Option Bool :=
  match l.selected with
  | none => none
  | some w =>
    if w ∈ l.master then some true
    else if w ∈ l.stack then some false
    else none

/-- `MasterStackLayoutSystem::add_window_after_selection`.  If the master has
spare capacity the window goes to the master; otherwise the configured
placement policy picks the container (focused-container policy falls back
to the master).  `add_window_to_container_front` inserts before the first
child, i.e. prepends.  The new window becomes selected and
`enforce_master_count` runs last. -/
def add_window_after_selection (st : MasterStackSettings) (l : MSLayout)
    (wid : WindowId) : MSLayout :=
  let master_has_capacity := l.master.length < st.master_count
  let targetMaster : Bool :=
    if master_has_capacity then true
    else
      match st.new_window_placement with
      | .master => true
      | .stack => false
      | .focused => (focused_container l).getD true
  let l' :=
    if targetMaster then { l with master := wid :: l.master }
    else { l with stack := wid :: l.stack }
  enforce_master_count st.master_count { l' with selected := some wid }

/-- `TraditionalLayoutSystem::remove_window` restricted to one layout
(modelled from the spec: the tree primitive detaches the window's leaf;
the selection is cleared when it pointed at the removed window), followed
by `normalize_layout` = `ensure_structure` + `enforce_master_count` as in
`MasterStackLayoutSystem::remove_window`. -/
def ms_remove_window (st : MasterStackSettings) (l : MSLayout)
    (wid : WindowId) : MSLayout :=
  let l' : MSLayout :=
    { master := l.master.filter (fun w => w ≠ wid),
      stack := l.stack.filter (fun w => w ≠ wid),
      selected := if l.selected = some wid then none else l.selected,
      fullscreen := l.fullscreen.filter (fun w => w ≠ wid) }
  enforce_master_count st.master_count l'

/-- `MasterStackLayoutSystem::adjust_master_count`: the new count is
`max 1 (current + delta)`; when unchanged nothing happens, otherwise every
layout is normalized (`ensure_structure` + `enforce_master_count`). -/
def adjust_master_count (st : MasterStackSettings) (l : MSLayout)
    (delta : Int) : MasterStackSettings × MSLayout :=
  let next : Nat := (max 1 (st.master_count + delta)).toNat
  if next = st.master_count then (st, l)
  else ({ st with master_count := next }, enforce_master_count next l)

/-- `MasterStackLayoutSystem::focused_window_in_container` (modelled from
the spec for the part resting on `local_selection`, which lives in the
tree primitive: the remembered selection inside the container, falling
back to its first child; when the globally selected window sits in the
container it is the local selection, otherwise the first window is used). -/
def focused_window_in_container (l : MSLayout) (isMaster : Bool) :
    Option WindowId :=
  let c := if isMaster then l.master else l.stack
  match l.selected with
  | some w => if w ∈ c then some w else c.head?
  | none => c.head?

/-- `TraditionalLayoutSystem::swap_windows` on the two-container layout:
the positions of the two windows are exchanged. -/
def ms_swap_windows (l : MSLayout) (a b : WindowId) : MSLayout :=
  let sw := fun w => if w = a then b else if w = b then a else w
  { l with master := l.master.map sw, stack := l.stack.map sw }

/-- `MasterStackLayoutSystem::promote_to_master`: no-op when nothing is
selected or the selection already heads the master; otherwise the selected
window is moved to the front of the master (`move_window_to_container_front`
leaves it in place when it is already inside the master) and
`enforce_master_count` runs. -/
def promote_to_master (st : MasterStackSettings) (l : MSLayout) : MSLayout :=
  match l.selected with
  | none => l
  | some wid =>
    if l.master.head? = some wid then l
    else
      let l' :=
        if wid ∈ l.master then l
        else if wid ∈ l.stack then
          { l with master := wid :: l.master,
                   stack := l.stack.filter (fun w => w ≠ wid) }
        else l
      enforce_master_count st.master_count l'

/-- `MasterStackLayoutSystem::swap_master_stack`: when both containers have
a focused window the two are swapped, keeping the previous selection. -/
def swap_master_stack (l : MSLayout) : MSLayout :=
  match focused_window_in_container l true, focused_window_in_container l false with
  | some mw, some sw => ms_swap_windows l mw sw
  | _, _ => l

/-- Swap the elements at positions `i` and `j` of a list (used to model a
within-container directional move). -/
def listSwap (xs : List WindowId) (i j : Nat) : List WindowId :=
  match xs.get? i, xs.get? j with
  | some a, some b => (xs.set i b).set j a
  | _, _ => xs

/-- `TraditionalLayoutSystem::move_selection` restricted to a flat container
(modelled from the spec: within a flat container a directional move along
the container axis swaps the selected window with the adjacent sibling;
at the boundary it fails). `true` in the result means the move happened. -/
def inner_move_selection (l : MSLayout) (d : Direction) : MSLayout × Bool :=
  match l.selected with
  | none => (l, false)
  | some w =>
    let forward := d = Direction.right || d = Direction.down
    let step := fun (c : List WindowId) =>
      match idxOf? w c with
      | none => none
      | some i =>
        if forward then
          if i + 1 < c.length then some (listSwap c i (i + 1)) else none
        else
          match i with
          | 0 => none
          | j + 1 => some (listSwap c (j + 1) j)
    if w ∈ l.master then
      match step l.master with
      | some m' => ({ l with master := m' }, true)
      | none => (l, false)
    else if w ∈ l.stack then
      match step l.stack with
      | some s' => ({ l with stack := s' }, true)
      | none => (l, false)
    else (l, false)

/-- `MasterStackLayoutSystem::move_selection`: directional moves are
reinterpreted relative to the configured master side; moving toward the
master promotes a focused stack window, moving toward the stack swaps the
focused master and stack windows (only when both containers have one);
moves along the container axis delegate to the tree primitive.  Every path
that mutates ends in `normalize_layout` (= `enforce_master_count` here). -/
def ms_move_selection (st : MasterStackSettings) (l : MSLayout)
    (d : Direction) : MSLayout × Bool :=
  match focused_container l with
  | none => (l, false)
  | some inMaster =>
    let towards : Bool × Bool :=
      match st.master_side with
      | .left => (d = Direction.left, d = Direction.right)
      | .right => (d = Direction.right, d = Direction.left)
      | .top => (d = Direction.up, d = Direction.down)
      | .bottom => (d = Direction.down, d = Direction.up)
    let towardsMaster := towards.1
    let towardsStack := towards.2
    let containerHorizontal : Bool :=
      match st.master_side with
      | .left | .right => false
      | .top | .bottom => true
    if towardsMaster && !inMaster then
      (enforce_master_count st.master_count (promote_to_master st l), true)
    else if towardsStack && inMaster then
      if (focused_window_in_container l true).isSome
          && (focused_window_in_container l false).isSome then
        (enforce_master_count st.master_count (swap_master_stack l), true)
      else (l, false)
    else if d.isHorizontal ≠ containerHorizontal then (l, false)
    else
      let r := inner_move_selection l d
      if r.2 then (enforce_master_count st.master_count r.1, true)
      else (l, false)

/-- One step of the reconcile loop in
`MasterStackLayoutSystem::set_windows_for_app`: merge the sorted desired
and current window lists, adding missing windows through
`add_window_after_selection` and detaching surplus ones (fullscreen nodes
are skipped). -/
def ms_reconcile (st : MasterStackSettings) :
    MSLayout → List WindowId → List WindowId → MSLayout
  | l, [], [] => l
  | l, d :: ds, [] => ms_reconcile st (add_window_after_selection st l d) ds []
  | l, [], c :: cs =>
    if c ∈ l.fullscreen then ms_reconcile st l [] cs
    else
      ms_reconcile st
        { l with master := l.master.filter (fun w => w ≠ c),
                 stack := l.stack.filter (fun w => w ≠ c) } [] cs
  | l, d :: ds, c :: cs =>
    if d = c then ms_reconcile st l ds cs
    else if WindowId.wlt d c then
      ms_reconcile st (add_window_after_selection st l d) ds (c :: cs)
    else if c ∈ l.fullscreen then ms_reconcile st l (d :: ds) cs
    else
      ms_reconcile st
        { l with master := l.master.filter (fun w => w ≠ c),
                 stack := l.stack.filter (fun w => w ≠ c) } (d :: ds) cs
termination_by _ ds cs => ds.length + cs.length

/-- `MasterStackLayoutSystem::set_windows_for_app`: collect the layout's
current windows owned by `pid`, sort both lists, run the merge loop, and
finish with `enforce_master_count`. -/
def set_windows_for_app (st : MasterStackSettings) (l : MSLayout)
    (pid : Int) (desired : List WindowId) : MSLayout :=
  let current :=
    ((l.master ++ l.stack).filter (fun w => w.pid = pid)).mergeSort
      WindowId.wle
  let desiredSorted := desired.mergeSort WindowId.wle
  enforce_master_count st.master_count (ms_reconcile st l desiredSorted current)

/-- The empty Master-Stack layout produced by `create_layout`. -/
def MSLayout.empty : MSLayout :=
  { master := [], stack := [], selected := none, fullscreen := [] }

/-- The three windows of the master-stack scenario in the spec's testable
properties, added in order to an empty layout with `master_count = 1`,
for a given new-window-placement policy (side = left). -/
def msC6Add (p : MasterStackNewWindowPlacement) : MSLayout :=
  let st : MasterStackSettings := ⟨1, p, .left⟩
  add_window_after_selection st
    (add_window_after_selection st
      (add_window_after_selection st MSLayout.empty ⟨1, 1⟩) ⟨1, 2⟩) ⟨1, 3⟩

/-- The scenario continued: `adjust_master_count` by `+1` (count 1 → 2). -/
def msC6Adjusted (p : MasterStackNewWindowPlacement) :
    MasterStackSettings × MSLayout :=
  adjust_master_count ⟨1, p, .left⟩ (msC6Add p) 1

theorem enforce_len (d : Nat) (l : MSLayout) :
    (enforce_master_count d l).master.length = min d l.total ∧
    (enforce_master_count d l).total = l.total := by
  rcases l with ⟨m, s, sel, fs⟩
  unfold enforce_master_count MSLayout.total
  rcases m with _ | ⟨m0, mrest⟩ <;> rcases s with _ | ⟨s0, srest⟩ <;>
    dsimp only <;> split_ifs <;>
    simp_all [List.length_take, List.length_drop, List.length_append] <;> omega

theorem enforce_invariant_post (d : Nat) (x : MSLayout) :
    (enforce_master_count d x).master.length
      = min d (enforce_master_count d x).total := by
  have h := enforce_len d x
  rw [h.2, h.1]

theorem enforce_overflow (d : Nat) (l : MSLayout) (hm : l.master ≠ [])
    (hd : d < l.master.length) :
    (enforce_master_count d l).master = l.master.take d ∧
    (enforce_master_count d l).stack = l.master.drop d ++ l.stack := by
  rcases l with ⟨m, s, sel, fs⟩
  rcases m with _ | ⟨m0, mrest⟩
  · simp at hm
  · unfold enforce_master_count
    rcases s with _ | ⟨s0, srest⟩ <;> dsimp only <;> split_ifs <;>
      simp_all

theorem enforce_underflow (d : Nat) (l : MSLayout) (hm : l.master ≠ [])
    (hd : l.master.length < d) :
    (enforce_master_count d l).master
        = l.master ++ l.stack.take (d - l.master.length) ∧
    (enforce_master_count d l).stack = l.stack.drop (d - l.master.length) := by
  rcases l with ⟨m, s, sel, fs⟩
  rcases m with _ | ⟨m0, mrest⟩
  · simp at hm
  · unfold enforce_master_count
    rcases s with _ | ⟨s0, srest⟩ <;> dsimp only <;> split_ifs <;>
      (try simp_all) <;> omega

theorem move_sel_shape (st : MasterStackSettings) (l : MSLayout)
    (d : Direction) :
    ms_move_selection st l d = (l, false) ∨
      ∃ x, ms_move_selection st l d
            = (enforce_master_count st.master_count x, true) := by
  unfold ms_move_selection
  rcases focused_container l with _ | b
  · exact Or.inl rfl
  · dsimp only
    split_ifs <;>
      first
        | exact Or.inl rfl
        | exact Or.inr ⟨_, rfl⟩

/-- **C1**: after every structural mutation of a Master-Stack layout
(adding a window, removing a window, adjusting the master count, moving
the selection, reconciling an application's desired window set), the
master container holds exactly `min master_count total_windows` windows;
and the overflow/underflow transfers performed by `enforce_master_count`
preserve the relative order of the transferred windows (overflow windows
are prepended to the stack as a block in master order; underflow windows
are drained from the head of the stack and appended to the master in
stack order). -/
theorem C1_master_stack_invariant
    (d : Nat) (l : MSLayout) (st : MasterStackSettings) (wid : WindowId)
    (delta : Int) (dir : Direction) (pid : Int) (ws : List WindowId)
    (hInv : l.master.length = min st.master_count l.total) :
    ((enforce_master_count d l).master.length = min d l.total
      ∧ (enforce_master_count d l).total = l.total)
    ∧ (l.master ≠ [] → d < l.master.length →
        (enforce_master_count d l).master = l.master.take d
          ∧ (enforce_master_count d l).stack = l.master.drop d ++ l.stack)
    ∧ (l.master ≠ [] → l.master.length < d →
        (enforce_master_count d l).master
            = l.master ++ l.stack.take (d - l.master.length)
          ∧ (enforce_master_count d l).stack
            = l.stack.drop (d - l.master.length))
    ∧ (add_window_after_selection st l wid).master.length
        = min st.master_count (add_window_after_selection st l wid).total
    ∧ (ms_remove_window st l wid).master.length
        = min st.master_count (ms_remove_window st l wid).total
    ∧ (adjust_master_count st l delta).2.master.length
        = min (adjust_master_count st l delta).1.master_count
            (adjust_master_count st l delta).2.total
    ∧ ((ms_move_selection st l dir).2 = true →
        (ms_move_selection st l dir).1.master.length
          = min st.master_count (ms_move_selection st l dir).1.total)
    ∧ (set_windows_for_app st l pid ws).master.length
        = min st.master_count (set_windows_for_app st l pid ws).total := by
  refine ⟨enforce_len d l, enforce_overflow d l, enforce_underflow d l,
    ?_, ?_, ?_, ?_, ?_⟩
  · unfold add_window_after_selection
    exact enforce_invariant_post _ _
  · unfold ms_remove_window
    exact enforce_invariant_post _ _
  · simp only [adjust_master_count]
    split_ifs with h
    · simpa using hInv
    · simpa using enforce_invariant_post _ _
  · intro hmoved
    rcases move_sel_shape st l dir with hs | ⟨x, hs⟩
    · rw [hs] at hmoved; simp at hmoved
    · rw [hs]; exact enforce_invariant_post _ _
  · unfold set_windows_for_app
    exact enforce_invariant_post _ _

/-- Witness for `C1_master_stack_invariant` at a concrete layout. -/
theorem C1_master_stack_invariant_witness :
    (([⟨1, 1⟩, ⟨1, 2⟩] : List WindowId).length
        = min (2 : Nat) (MSLayout.total ⟨[⟨1, 1⟩, ⟨1, 2⟩], [⟨1, 3⟩], none, []⟩))
      ∧ ((enforce_master_count 1
            ⟨[⟨1, 1⟩, ⟨1, 2⟩], [⟨1, 3⟩], none, []⟩).master.length
          = min 1 (MSLayout.total ⟨[⟨1, 1⟩, ⟨1, 2⟩], [⟨1, 3⟩], none, []⟩)
        ∧ (enforce_master_count 1
            ⟨[⟨1, 1⟩, ⟨1, 2⟩], [⟨1, 3⟩], none, []⟩).total
          = MSLayout.total ⟨[⟨1, 1⟩, ⟨1, 2⟩], [⟨1, 3⟩], none, []⟩) := by
  refine ⟨by decide, ?_⟩
  exact (C1_master_stack_invariant 1 ⟨[⟨1, 1⟩, ⟨1, 2⟩], [⟨1, 3⟩], none, []⟩
    ⟨2, .stack, .left⟩ ⟨1, 9⟩ 1 .left 1 [] (by decide)).1

/-- **C6 counterexample**: under every new-window placement policy
(always-stack, always-master, focused-container) the code's result differs
from the claimed `master = [w1], stack = [w2, w3]` followed by
`master = [w1, w2], stack = [w3]`: `add_window_after_selection` inserts new
windows at the *front* of the target container, and overflow demotion also
prepends. -/
theorem C6_counterexample :
    (¬ ((((msC6Add .stack).master = [⟨1, 1⟩]
          ∧ (msC6Add .stack).stack = [⟨1, 2⟩, ⟨1, 3⟩])
        ∧ (msC6Adjusted .stack).2.master = [⟨1, 1⟩, ⟨1, 2⟩]
        ∧ (msC6Adjusted .stack).2.stack = [⟨1, 3⟩])))
    ∧ (¬ ((((msC6Add .master).master = [⟨1, 1⟩]
          ∧ (msC6Add .master).stack = [⟨1, 2⟩, ⟨1, 3⟩])
        ∧ (msC6Adjusted .master).2.master = [⟨1, 1⟩, ⟨1, 2⟩]
        ∧ (msC6Adjusted .master).2.stack = [⟨1, 3⟩])))
    ∧ (¬ ((((msC6Add .focused).master = [⟨1, 1⟩]
          ∧ (msC6Add .focused).stack = [⟨1, 2⟩, ⟨1, 3⟩])
        ∧ (msC6Adjusted .focused).2.master = [⟨1, 1⟩, ⟨1, 2⟩]
        ∧ (msC6Adjusted .focused).2.stack = [⟨1, 3⟩]))) := by
  decide

/-- **C6 (amended)**: with the always-stack placement policy, adding
`w1, w2, w3` in order to an empty Master-Stack layout with
`master_count = 1` yields `master = [w1]` and `stack = [w3, w2]` (new
windows are inserted at the front of the stack); increasing the master
count to `2` then pulls the head of the stack, yielding
`master = [w1, w3]` and `stack = [w2]`. -/
theorem C6_scenario_front_insertion :
    (msC6Add .stack).master = [⟨1, 1⟩]
    ∧ (msC6Add .stack).stack = [⟨1, 3⟩, ⟨1, 2⟩]
    ∧ (msC6Adjusted .stack).1.master_count = 2
    ∧ (msC6Adjusted .stack).2.master = [⟨1, 1⟩, ⟨1, 3⟩]
    ∧ (msC6Adjusted .stack).2.stack = [⟨1, 2⟩] := by
  decide

/-! ## Scrolling layout system (`layout_engine/systems/scrolling.rs`)

One layout is an ordered list of columns (each an ordered list of windows)
plus a continuous scroll offset and bookkeeping cells.  The Rust code keeps
the offset and the cached geometry in atomic `f64` cells; all access is
serialized by the Reactor, so they are modelled as plain rational fields. -/

/-- `Column`. -/
structure ScrollColumn where
  windows : List WindowId
  width_offset : ℚ
deriving DecidableEq

/-- `LayoutState` of the scrolling system. -/
structure ScrollState where
  columns : List ScrollColumn
  selected : Option WindowId
  column_width_ratio : ℚ
  scroll_offset_px : ℚ
  pending_align : Bool
  pending_center_align : Bool
  pending_reveal_direction : Int
  center_override_window : Option WindowId
  last_screen_width : ℚ
  last_gap_x : ℚ
  last_center_offset_delta_px : ℚ
  overscroll_accumulation : ℚ
  fullscreen : List WindowId
  fullscreen_within_gaps : List WindowId
deriving DecidableEq

/-- The fields of `ScrollingLayoutSettings` read by the embedded
operations (modelled from the spec: `common/config.rs` is not among the
sources; `workspace_switch_threshold` is the configured overscroll
threshold of `settings.gestures`). -/
structure ScrollSettings where
  min_column_width_ratio : ℚ
  max_column_width_ratio : ℚ
  workspace_switch_threshold : ℚ
deriving DecidableEq

/-- `LayoutState::new`. -/
def ScrollState.new (ratio : ℚ) : ScrollState :=
  { columns := [], selected := none, column_width_ratio := ratio,
    scroll_offset_px := 0, pending_align := false,
    pending_center_align := false, pending_reveal_direction := 0,
    center_override_window := none, last_screen_width := 0,
    last_gap_x := 0, last_center_offset_delta_px := 0,
    overscroll_accumulation := 0, fullscreen := [],
    fullscreen_within_gaps := [] }

/-- `f64::clamp` (assumes `lo ≤ hi` as the Rust function does). -/
def rustClamp (x lo hi : ℚ) : ℚ := if x < lo then lo else if hi < x then hi else x

/-- Erase value at a position and return the new list; out-of-range indices
leave the list unchanged (mirrors `Vec::remove` for indices that the code
has already validated via `locate`). -/
def updAt (cols : List ScrollColumn) (i : Nat)
    (f : ScrollColumn → ScrollColumn) : List ScrollColumn :=
  match cols.get? i with
  | some c => cols.set i (f c)
  | none => cols

/-- Insert an element at a position, clamping to the end (mirrors
`Vec::insert` after the code has clamped the index). -/
def insertAt (cols : List ScrollColumn) (i : Nat) (c : ScrollColumn) :
    List ScrollColumn :=
  cols.take i ++ c :: cols.drop i

/-- Swap two positions of a list (`Vec::swap`). -/
def listSwapAt {α : Type} (xs : List α) (i j : Nat) : List α :=
  match xs.get? i, xs.get? j with
  | some a, some b => (xs.set i b).set j a
  | _, _ => xs

/-- `LayoutState::first_window`. -/
def ScrollState.first_window (s : ScrollState) : Option WindowId :=
  s.columns.head?.bind (fun c => c.windows.head?)

/-- `LayoutState::locate`: first (column, row) position of a window. -/
def locateGo (wid : WindowId) : Nat → List ScrollColumn → Option (Nat × Nat)
  | _, [] => none
  | i, c :: cs =>
    match idxOf? wid c.windows with
    | some r => some (i, r)
    | none => locateGo wid (i + 1) cs

/-- `LayoutState::locate`. -/
def ScrollState.locate (s : ScrollState) (wid : WindowId) : Option (Nat × Nat) :=
  locateGo wid 0 s.columns

/-- `LayoutState::selected_location`. -/
def ScrollState.selected_location (s : ScrollState) : Option (Nat × Nat) :=
  s.selected.bind s.locate

/-- `LayoutState::align_scroll_to_selected`. -/
def align_scroll_to_selected (s : ScrollState) : ScrollState :=
  if s.center_override_window.isSome ∧ s.center_override_window = s.selected then
    { s with pending_center_align := true, pending_reveal_direction := 0,
             pending_align := false }
  else
    let s' := { s with center_override_window := none,
                       pending_center_align := false,
                       pending_reveal_direction := 0 }
    match s'.selected_location with
    | none => { s' with scroll_offset_px := 0 }
    | some _ => { s' with pending_align := true }

/-- `LayoutState::clamp_scroll_offset`. -/
def clamp_scroll_offset (s : ScrollState) : ScrollState :=
  if s.columns.isEmpty then { s with scroll_offset_px := 0 }
  else { s with pending_align := false }

/-- `LayoutState::remove_window`: remove the window at its located
position; delete the column if it became empty; repair the selection
(next window in the column, else the column's last, else the previous
column's last, else the first window); clear a matching center override;
finish with `clamp_scroll_offset`. -/
def ScrollState.remove_window (s : ScrollState) (wid : WindowId) : ScrollState :=
  match s.locate wid with
  | none => s
  | some (ci, ri) =>
    let cols1 := updAt s.columns ci
      (fun c => { c with windows := c.windows.eraseIdx ri })
    let emptied := (((cols1.get? ci).map ScrollColumn.windows).getD []).isEmpty
    let cols2 := if emptied then cols1.eraseIdx ci else cols1
    let s1 := { s with columns := cols2,
                       fullscreen := s.fullscreen.filter (fun w => w ≠ wid),
                       fullscreen_within_gaps :=
                         s.fullscreen_within_gaps.filter (fun w => w ≠ wid) }
    let s2 :=
      if s1.selected = some wid then
        let inCol : Option WindowId :=
          match s1.columns.get? ci with
          | some col => ((col.windows.get? ri).orElse (fun _ => col.windows.getLast?))
          | none => none
        let prevCol : Option WindowId :=
          match inCol with
          | some x => some x
          | none =>
            if 0 < ci then (s1.columns.get? (ci - 1)).bind (fun c => c.windows.getLast?)
            else none
        let sel : Option WindowId :=
          match prevCol with
          | some x => some x
          | none => s1.first_window
        { s1 with selected := sel }
      else s1
    let s3 :=
      if s2.center_override_window = some wid then
        { s2 with center_override_window := none }
      else s2
    clamp_scroll_offset s3

/-- `LayoutState::insert_column_after`. -/
def insert_column_after (s : ScrollState) (index : Nat) (wid : WindowId) :
    ScrollState :=
  let insert_at := min (index + 1) s.columns.length
  align_scroll_to_selected
    { s with columns := insertAt s.columns insert_at ⟨[wid], 0⟩,
             selected := some wid }

/-- `LayoutState::insert_column_at_end`. -/
def insert_column_at_end (s : ScrollState) (wid : WindowId) : ScrollState :=
  align_scroll_to_selected
    { s with columns := s.columns ++ [⟨[wid], 0⟩], selected := some wid }

/-- `LayoutState::move_window_to_column_end`: detach the window (dropping
its column if emptied, and shifting the target index left when the dropped
column was before it), then append it to the target column, or to a fresh
column at the end when the clamped target falls past the last column. -/
def move_window_to_column_end (s : ScrollState) (wid : WindowId)
    (target_col : Nat) : ScrollState :=
  match s.locate wid with
  | none => s
  | some (ci, ri) =>
    if ci = target_col then s
    else
      let cols1 := updAt s.columns ci
        (fun c => { c with windows := c.windows.eraseIdx ri })
      let removed_column :=
        (((cols1.get? ci).map ScrollColumn.windows).getD []).isEmpty
      let cols2 := if removed_column then cols1.eraseIdx ci else cols1
      let target1 :=
        if removed_column ∧ ci < target_col then target_col - 1 else target_col
      let target := min target1 cols2.length
      let cols3 :=
        if cols2.length ≤ target then cols2 ++ [⟨[wid], 0⟩]
        else updAt cols2 target (fun c => { c with windows := c.windows ++ [wid] })
      align_scroll_to_selected { s with columns := cols3, selected := some wid }

/-- `ScrollingLayoutSystem::move_selected_window_horizontal`.  In a stacked
column (more than one window) the selected window is extracted into a new
neighbouring singleton column (for a non-horizontal direction the Rust
code removes the window and then returns `false`, leaving the partial
mutation in place; this path is unreachable from `move_selection`, which
only dispatches horizontally here).  In a single-window column the two
whole columns are swapped. -/
def move_selected_window_horizontal (s : ScrollState) (dir : Direction) :
    ScrollState × Bool :=
  match s.selected with
  | none => (s, false)
  | some sel =>
    match s.locate sel with
    | none => (s, false)
    | some (ci, ri) =>
      if 1 < (((s.columns.get? ci).map ScrollColumn.windows).getD []).length then
        let cols1 := updAt s.columns ci
          (fun c => { c with windows := c.windows.eraseIdx ri })
        match dir with
        | .left =>
          ({ s with columns := insertAt cols1 ci ⟨[sel], 0⟩,
                    selected := some sel }, true)
        | .right =>
          ({ s with columns :=
                insertAt cols1 (min (ci + 1) cols1.length) ⟨[sel], 0⟩,
                    selected := some sel }, true)
        | _ => ({ s with columns := cols1 }, false)
      else
        let target? : Option Nat :=
          match dir with
          | .left => if 0 < ci then some (ci - 1) else none
          | .right => if ci + 1 < s.columns.length then some (ci + 1) else none
          | _ => none
        match target? with
        | none => (s, false)
        | some tc =>
          ({ s with columns := listSwapAt s.columns ci tc,
                    selected := some sel }, true)

/-- `ScrollingLayoutSystem::move_selected_window_vertical`: swap the
selected window with its neighbour inside the column. -/
def move_selected_window_vertical (s : ScrollState) (dir : Direction) :
    ScrollState × Bool :=
  match s.selected_location with
  | none => (s, false)
  | some (ci, ri) =>
    let wins := ((s.columns.get? ci).map ScrollColumn.windows).getD []
    let target? : Option Nat :=
      match dir with
      | .up => if 0 < ri then some (ri - 1) else none
      | .down => if ri + 1 < wins.length then some (ri + 1) else none
      | _ => none
    match target? with
    | none => (s, false)
    | some ti =>
      let newWins := listSwapAt wins ri ti
      ({ s with columns :=
            (updAt s.columns ci (fun c => { c with windows := newWins })),
                selected := newWins.get? ti }, true)

/-- `ScrollingLayoutSystem::move_selection` for the scrolling system:
dispatch horizontally or vertically, and re-align on success. -/
def scroll_move_selection (s : ScrollState) (dir : Direction) :
    ScrollState × Bool :=
  let r :=
    match dir with
    | .left | .right => move_selected_window_horizontal s dir
    | .up | .down => move_selected_window_vertical s dir
  if r.2 then (align_scroll_to_selected r.1, true) else r

/-- `ScrollingLayoutSystem::swap_windows` for the scrolling system. -/
def scroll_swap_windows (s : ScrollState) (a b : WindowId) :
    ScrollState × Bool :=
  match s.locate a, s.locate b with
  | some (ac, ar), some (bc, br) =>
    if ac = bc then
      ({ s with columns :=
          (updAt s.columns ac
            (fun c => { c with windows := listSwapAt c.windows ar br })) }, true)
    else
      let cols1 := updAt s.columns ac (fun c => { c with windows := c.windows.set ar b })
      let cols2 := updAt cols1 bc (fun c => { c with windows := c.windows.set br a })
      ({ s with columns := cols2 }, true)
  | _, _ => (s, false)

/-- `ScrollingLayoutSystem::unstack_parent_of_selection`: split every
non-selected window of the selected (stacked) column into its own singleton
column, inserted right after it in order; the selected column keeps the
windows equal to the selection. -/
def unstack_parent_of_selection (s : ScrollState) : ScrollState :=
  match s.selected_location with
  | none => s
  | some (ci, ri) =>
    let wins := ((s.columns.get? ci).map ScrollColumn.windows).getD []
    if wins.length ≤ 1 then s
    else
      let selWin := (wins.get? ri).getD ⟨0, 0⟩
      let remaining := wins.filter (fun w => w = selWin)
      let moved := wins.filter (fun w => w ≠ selWin)
      let cols1 := updAt s.columns ci (fun c => { c with windows := remaining })
      let cols2 := cols1.take (ci + 1)
        ++ moved.map (fun w => (⟨[w], 0⟩ : ScrollColumn))
        ++ cols1.drop (ci + 1)
      { s with columns := cols2 }

/-- `ScrollingLayoutSystem::unjoin_selection`: extract the selected window
of a stacked column into a fresh singleton column right after it. -/
def unjoin_selection (s : ScrollState) : ScrollState :=
  match s.selected_location with
  | none => s
  | some (ci, ri) =>
    let wins := ((s.columns.get? ci).map ScrollColumn.windows).getD []
    if wins.length ≤ 1 then s
    else
      let wid := (wins.get? ri).getD ⟨0, 0⟩
      let cols1 := updAt s.columns ci
        (fun c => { c with windows := c.windows.eraseIdx ri })
      let insert_at := min (ci + 1) cols1.length
      let s1 := align_scroll_to_selected
        { s with columns := insertAt cols1 insert_at ⟨[wid], 0⟩,
                 selected := some wid }
      clamp_scroll_offset s1

/-- `ScrollingLayoutSystem::apply_stacking_to_parent_of_selection`: fold
every window of the neighbouring column into the selected column. -/
def apply_stacking_to_parent_of_selection (s : ScrollState) : ScrollState :=
  match s.selected_location with
  | none => s
  | some (ci, _) =>
    let target? : Option Nat :=
      if ci + 1 < s.columns.length then some (ci + 1)
      else if 0 < ci then some (ci - 1)
      else none
    match target? with
    | none => s
    | some tc =>
      let moved := ((s.columns.get? tc).map ScrollColumn.windows).getD []
      if moved.isEmpty then s
      else moved.foldl (fun st w => move_window_to_column_end st w ci) s

/-- `ScrollingLayoutSystem::join_selection_with_direction`. -/
def join_selection_with_direction (s : ScrollState) (dir : Direction) :
    ScrollState :=
  match s.selected with
  | none => s
  | some sel =>
    match s.selected_location with
    | none => s
    | some (ci, _) =>
      let target? : Option Nat :=
        match dir with
        | .left => if 0 < ci then some (ci - 1) else none
        | .right => if ci + 1 < s.columns.length then some (ci + 1) else none
        | _ => none
      match target? with
      | none => s
      | some tc => move_window_to_column_end s sel tc

/-- `ScrollingLayoutSystem::add_window_after_selection` for the scrolling
system: a new singleton column after the selected one (or after column 0,
or at the end of an empty strip). -/
def scroll_add_window_after_selection (s : ScrollState) (wid : WindowId) :
    ScrollState :=
  match s.selected_location with
  | some (ci, _) => insert_column_after s ci wid
  | none =>
    if s.columns.isEmpty then insert_column_at_end s wid
    else insert_column_after s 0 wid

/-- The merge loop of `ScrollingLayoutSystem::set_windows_for_app`. -/
def scroll_reconcile : ScrollState → List WindowId → List WindowId → ScrollState
  | s, [], [] => s
  | s, d :: ds, [] => scroll_reconcile (insert_column_at_end s d) ds []
  | s, [], c :: cs => scroll_reconcile (s.remove_window c) [] cs
  | s, d :: ds, c :: cs =>
    if d = c then scroll_reconcile s ds cs
    else if WindowId.wlt d c then
      scroll_reconcile (insert_column_at_end s d) ds (c :: cs)
    else scroll_reconcile (s.remove_window c) (d :: ds) cs
termination_by _ ds cs => ds.length + cs.length

/-- `ScrollingLayoutSystem::set_windows_for_app`. -/
def scroll_set_windows_for_app (s : ScrollState) (pid : Int)
    (desired : List WindowId) : ScrollState :=
  let current :=
    ((s.columns.flatMap ScrollColumn.windows).filter
      (fun w => w.pid = pid)).mergeSort WindowId.wle
  scroll_reconcile s (desired.mergeSort WindowId.wle) current

/-- `ScrollingLayoutSystem::clamp_ratio_with_bounds`:
`ratio.clamp(min, max).max(0.05)`. -/
def clamp_ratio_with_bounds (r lo hi : ℚ) : ℚ :=
  max (rustClamp r lo hi) (5 / 100)

/-- The per-column widths of `column_widths_and_starts`:
`(screen_width * ratio).max(1.0)` with the column ratio clamped. -/
def columnWidths (set : ScrollSettings) (s : ScrollState) : List ℚ :=
  let base := clamp_ratio_with_bounds s.column_width_ratio
    set.min_column_width_ratio set.max_column_width_ratio
  s.columns.map (fun c =>
    max (s.last_screen_width * clamp_ratio_with_bounds (base + c.width_offset)
      set.min_column_width_ratio set.max_column_width_ratio) 1)

/-- Cursor positions of `column_widths_and_starts`: each column starts at
the sum of all previous `width + gap`. -/
def startsFrom (g : ℚ) : ℚ → List ℚ → List ℚ
  | _, [] => []
  | c, w :: ws => c :: startsFrom g (c + w + g) ws

/-- The per-column start offsets of `column_widths_and_starts`. -/
def columnStarts (set : ScrollSettings) (s : ScrollState) : List ℚ :=
  startsFrom s.last_gap_x 0 (columnWidths set s)

/-- The scroll step of `scroll_by_delta`: selected column width plus gap. -/
def scrollStep (set : ScrollSettings) (s : ScrollState) : ℚ :=
  let widths := columnWidths set s
  let idx := (s.selected_location.map Prod.fst).getD 0
  ((widths.get? idx).getD 1) + s.last_gap_x

/-- Lower scroll bound of `scroll_by_delta`: shifted by the center-override
delta when a center override is active. -/
def scrollMinOffset (s : ScrollState) : ℚ :=
  if s.center_override_window.isSome then s.last_center_offset_delta_px else 0

/-- Upper scroll bound of `scroll_by_delta`: the last column start, shifted
by the center-override delta when a center override is active. -/
def scrollMaxOffset (set : ScrollSettings) (s : ScrollState) : ℚ :=
  let baseMax := (columnStarts set s).getLast?.getD 0
  if s.center_override_window.isSome then baseMax + s.last_center_offset_delta_px
  else baseMax

/-- `ScrollingLayoutSystem::scroll_by_delta`: advance the raw offset by
`delta × (selected column width + gap)`, clamp it to the valid bounds, and
accumulate overscroll past either bound; when the accumulated overscroll
reaches the configured threshold, report the boundary direction and reset
the accumulator. -/
def scroll_by_delta (set : ScrollSettings) (s : ScrollState) (delta : ℚ) :
    ScrollState × Option Direction :=
  if s.last_screen_width ≤ 0 then (s, none)
  else if s.columns.isEmpty then (s, none)
  else
    let step := scrollStep set s
    if step ≤ 0 then (s, none)
    else
      let minO := scrollMinOffset s
      let maxO := scrollMaxOffset set s
      let next_raw := s.scroll_offset_px + delta * step
      let next := rustClamp next_raw minO maxO
      let s1 := { s with scroll_offset_px := next }
      if next_raw < minO ∧ delta < 0 then
        let overscroll := (minO - next_raw) / step
        let accum := s1.overscroll_accumulation + overscroll
        if set.workspace_switch_threshold ≤ accum then
          ({ s1 with overscroll_accumulation := 0 }, some Direction.left)
        else ({ s1 with overscroll_accumulation := accum }, none)
      else if maxO < next_raw ∧ 0 < delta then
        let overscroll := (next_raw - maxO) / step
        let accum := s1.overscroll_accumulation + overscroll
        if set.workspace_switch_threshold ≤ accum then
          ({ s1 with overscroll_accumulation := 0 }, some Direction.right)
        else ({ s1 with overscroll_accumulation := accum }, none)
      else ({ s1 with overscroll_accumulation := 0 }, none)

/-- Fold a sequence of `scroll_by_delta` calls. -/
def scrollSeq (set : ScrollSettings) (s : ScrollState) : List ℚ → ScrollState
  | [] => s
  | d :: ds => scrollSeq set (scroll_by_delta set s d).1 ds

theorem rustClamp_mem {x lo hi : ℚ} (h : lo ≤ hi) :
    lo ≤ rustClamp x lo hi ∧ rustClamp x lo hi ≤ hi := by
  unfold rustClamp
  split_ifs <;> constructor <;> linarith

theorem columnWidths_ge_one (set : ScrollSettings) (s : ScrollState) :
    ∀ w ∈ columnWidths set s, 1 ≤ w := by
  intro w hw
  unfold columnWidths at hw
  simp only [List.mem_map] at hw
  obtain ⟨c, _, rfl⟩ := hw
  exact le_max_right _ _

theorem startsFrom_nonneg (g : ℚ) (hg : 0 ≤ g) (ws : List ℚ)
    (hws : ∀ w ∈ ws, 1 ≤ w) :
    ∀ c : ℚ, 0 ≤ c → ∀ x ∈ startsFrom g c ws, 0 ≤ x := by
  induction ws with
  | nil => intro c _ x hx; simp [startsFrom] at hx
  | cons w ws ih =>
    intro c hc x hx
    simp only [startsFrom, List.mem_cons] at hx
    rcases hx with rfl | hx
    · exact hc
    · have hw : 1 ≤ w := hws w (List.mem_cons_self _ _)
      exact ih (fun v hv => hws v (List.mem_cons_of_mem _ hv)) (c + w + g)
        (by linarith) x hx

theorem mem_of_getLast?_eq {l : List ℚ} {a : ℚ} (h : l.getLast? = some a) :
    a ∈ l := by
  obtain ⟨hne, rfl⟩ := List.mem_getLast?_eq_getLast (by simpa using h)
  exact List.getLast_mem hne

theorem baseMax_nonneg (set : ScrollSettings) (s : ScrollState)
    (hg : 0 ≤ s.last_gap_x) :
    0 ≤ ((columnStarts set s).getLast?.getD 0) := by
  cases h : (columnStarts set s).getLast? with
  | none => simp
  | some a =>
    have ha : a ∈ columnStarts set s := mem_of_getLast?_eq h
    have := startsFrom_nonneg s.last_gap_x hg (columnWidths set s)
      (columnWidths_ge_one set s) 0 le_rfl a ha
    simpa using this

theorem scrollMin_le_scrollMax (set : ScrollSettings) (s : ScrollState)
    (hg : 0 ≤ s.last_gap_x) :
    scrollMinOffset s ≤ scrollMaxOffset set s := by
  have hb := baseMax_nonneg set s hg
  unfold scrollMinOffset scrollMaxOffset
  dsimp only
  split_ifs <;> linarith

theorem scrollStep_pos (set : ScrollSettings) (s : ScrollState)
    (hg : 0 ≤ s.last_gap_x) : 0 < scrollStep set s := by
  unfold scrollStep
  have h1 : (1 : ℚ) ≤ ((columnWidths set s).get?
      ((s.selected_location.map Prod.fst).getD 0)).getD 1 := by
    cases h : (columnWidths set s).get?
        ((s.selected_location.map Prod.fst).getD 0) with
    | none => simp
    | some w =>
      have : w ∈ columnWidths set s := List.get?_mem h
      simpa [h] using columnWidths_ge_one set s w this
  dsimp only
  linarith

theorem scroll_by_delta_shape (set : ScrollSettings) (s : ScrollState)
    (δ : ℚ) (hw : ¬ s.last_screen_width ≤ 0) (hcols : s.columns ≠ [])
    (hg : 0 ≤ s.last_gap_x) :
    ∃ a, (scroll_by_delta set s δ).1
      = { s with
            scroll_offset_px :=
              rustClamp (s.scroll_offset_px + δ * scrollStep set s)
                (scrollMinOffset s) (scrollMaxOffset set s),
            overscroll_accumulation := a } := by
  have h3 : ¬ scrollStep set s ≤ 0 :=
    not_le.mpr (scrollStep_pos set s hg)
  have hce : ¬ s.columns.isEmpty = true := by simp [hcols]
  unfold scroll_by_delta
  rw [if_neg hw, if_neg hce]
  dsimp only
  rw [if_neg h3]
  split_ifs <;> exact ⟨_, rfl⟩

theorem scroll_by_delta_bounds (set : ScrollSettings) (s : ScrollState)
    (δ : ℚ) (hw : ¬ s.last_screen_width ≤ 0) (hcols : s.columns ≠ [])
    (hg : 0 ≤ s.last_gap_x) :
    scrollMinOffset s ≤ (scroll_by_delta set s δ).1.scroll_offset_px
      ∧ (scroll_by_delta set s δ).1.scroll_offset_px ≤ scrollMaxOffset set s := by
  obtain ⟨a, ha⟩ := scroll_by_delta_shape set s δ hw hcols hg
  rw [ha]
  exact rustClamp_mem (scrollMin_le_scrollMax set s hg)

theorem scroll_by_delta_geom (set : ScrollSettings) (s : ScrollState) (δ : ℚ)
    (hw : ¬ s.last_screen_width ≤ 0) (hcols : s.columns ≠ [])
    (hg : 0 ≤ s.last_gap_x) :
    (scroll_by_delta set s δ).1.columns = s.columns
    ∧ (scroll_by_delta set s δ).1.last_screen_width = s.last_screen_width
    ∧ (scroll_by_delta set s δ).1.last_gap_x = s.last_gap_x
    ∧ scrollMinOffset (scroll_by_delta set s δ).1 = scrollMinOffset s
    ∧ scrollMaxOffset set (scroll_by_delta set s δ).1 = scrollMaxOffset set s := by
  obtain ⟨a, ha⟩ := scroll_by_delta_shape set s δ hw hcols hg
  rw [ha]
  refine ⟨rfl, rfl, rfl, rfl, ?_⟩
  unfold scrollMaxOffset columnStarts columnWidths
  rfl

theorem scrollSeq_bounds (set : ScrollSettings) (deltas : List ℚ) :
    ∀ s : ScrollState, ¬ s.last_screen_width ≤ 0 → s.columns ≠ [] →
    0 ≤ s.last_gap_x →
    scrollMinOffset s ≤ s.scroll_offset_px →
    s.scroll_offset_px ≤ scrollMaxOffset set s →
    scrollMinOffset s ≤ (scrollSeq set s deltas).scroll_offset_px
      ∧ (scrollSeq set s deltas).scroll_offset_px ≤ scrollMaxOffset set s := by
  induction deltas with
  | nil => intro s _ _ _ h1 h2; exact ⟨h1, h2⟩
  | cons d ds ih =>
    intro s hw hcols hg _ _
    obtain ⟨hc, hsw, hgx, hmin, hmax⟩ := scroll_by_delta_geom set s d hw hcols hg
    have hb := scroll_by_delta_bounds set s d hw hcols hg
    have hrec := ih (scroll_by_delta set s d).1 (by rw [hsw]; exact hw)
      (by rw [hc]; exact hcols) (by rw [hgx]; exact hg)
      (by rw [hmin]; exact hb.1) (by rw [hmax]; exact hb.2)
    rw [hmin, hmax] at hrec
    exact hrec

/-- Two equal-width single-window columns with cached geometry (screen
width 100, horizontal gap 10, base ratio 1/2), scroll offset pinned at the
left boundary; the overscroll accumulator is a parameter. -/
def c5state (a : ℚ) : ScrollState :=
  { columns := [⟨[⟨1, 1⟩], 0⟩, ⟨[⟨1, 2⟩], 0⟩], selected := some ⟨1, 1⟩,
    column_width_ratio := 1 / 2, scroll_offset_px := 0, pending_align := false,
    pending_center_align := false, pending_reveal_direction := 0,
    center_override_window := none, last_screen_width := 100,
    last_gap_x := 10, last_center_offset_delta_px := 0,
    overscroll_accumulation := a, fullscreen := [],
    fullscreen_within_gaps := [] }

/-- Scroll settings with ratio bounds 1/10..9/10 and a parametric
workspace-switch threshold. -/
def c5set (t : ℚ) : ScrollSettings := ⟨1 / 10, 9 / 10, t⟩

theorem c5_step (t a : ℚ) :
    scroll_by_delta (c5set t) (c5state a) (-1)
      = if t ≤ a + 1 then (c5state 0, some Direction.left)
        else (c5state (a + 1), none) := by
  have hstep : scrollStep (c5set t) (c5state a) = 60 := by
    norm_num [scrollStep, c5state, c5set, columnWidths,
      clamp_ratio_with_bounds, rustClamp, ScrollState.selected_location,
      ScrollState.locate, locateGo, idxOf?]
  have hmin : scrollMinOffset (c5state a) = 0 := by
    norm_num [scrollMinOffset, c5state]
  have hmax : scrollMaxOffset (c5set t) (c5state a) = 60 := by
    norm_num [scrollMaxOffset, c5state, c5set, columnStarts, columnWidths,
      startsFrom, clamp_ratio_with_bounds, rustClamp]
  unfold scroll_by_delta
  rw [hstep, hmin, hmax]
  norm_num [c5state, rustClamp]
  split_ifs <;> simp_all [c5state, c5set] <;> linarith

/-- The state after `k` repetitions of `scroll_by_delta (-1)` from
`c5state 0`. -/
def c5iter (t : ℚ) : Nat → ScrollState
  | 0 => c5state 0
  | k + 1 => (scroll_by_delta (c5set t) (c5iter t k) (-1)).1

/-- The result of the `(k+1)`-st repetition of `scroll_by_delta (-1)`. -/
def c5result (t : ℚ) (k : Nat) : Option Direction :=
  (scroll_by_delta (c5set t) (c5iter t k) (-1)).2

theorem c5iter_eq (t : ℚ) : ∀ k : ℕ, (k : ℚ) < t → c5iter t k = c5state k := by
  intro k
  induction k with
  | zero => intro _; norm_num [c5iter]
  | succ k ih =>
    intro hk
    have hk1 : ((k : ℚ) + 1) < t := by push_cast at hk ⊢; linarith
    have hk' : (k : ℚ) < t := by linarith
    show (scroll_by_delta (c5set t) (c5iter t k) (-1)).1 = c5state (k + 1 : ℕ)
    rw [ih hk', c5_step, if_neg (by linarith)]
    push_cast
    rfl

/-- **C5**: in a Scrolling layout with two equal-width columns pinned at
the left boundary, each `scroll_by_delta (-1)` call adds exactly one unit
of overscroll; every call whose accumulated overscroll stays below the
configured threshold `t` returns `none`; the call that reaches the
threshold (the `n`-th, with `n - 1 < t ≤ n`) returns
`some Direction.left` and resets the accumulator to zero, so the next
call returns `none` again. -/
theorem C5_overscroll_switch (t : ℚ) (n : ℕ)
    (ht : 1 < t) (htn : t ≤ (n : ℚ)) (hnt : (n : ℚ) - 1 < t) :
    (∀ k : ℕ, (k : ℚ) + 1 < t → c5result t k = none)
    ∧ c5result t (n - 1) = some Direction.left
    ∧ c5iter t n = c5state 0
    ∧ c5result t n = none := by
  have hn1 : 1 < n := by
    have : (1 : ℚ) < n := lt_of_lt_of_le ht htn
    exact_mod_cast this
  obtain ⟨m, rfl⟩ : ∃ m, n = m + 1 := ⟨n - 1, by omega⟩
  have hmcast : ((m + 1 : ℕ) : ℚ) - 1 = (m : ℚ) := by push_cast; ring
  have hm_lt : (m : ℚ) < t := by rw [hmcast] at hnt; exact hnt
  have hstep_m := c5_step t m
  refine ⟨?_, ?_, ?_, ?_⟩
  · intro k hk
    have hk' : (k : ℚ) < t := by linarith
    unfold c5result
    rw [c5iter_eq t k hk', c5_step, if_neg (by linarith)]
  · unfold c5result
    have : (m + 1) - 1 = m := by omega
    rw [this, c5iter_eq t m hm_lt, c5_step,
      if_pos (by push_cast at htn; linarith)]
  · show (scroll_by_delta (c5set t) (c5iter t m) (-1)).1 = c5state 0
    rw [c5iter_eq t m hm_lt, c5_step, if_pos (by push_cast at htn; linarith)]
  · unfold c5result
    show (scroll_by_delta (c5set t)
        (c5iter t (m + 1)) (-1)).2 = none
    have hiter : c5iter t (m + 1) = c5state 0 := by
      show (scroll_by_delta (c5set t) (c5iter t m) (-1)).1 = c5state 0
      rw [c5iter_eq t m hm_lt, c5_step, if_pos (by push_cast at htn; linarith)]
    rw [hiter, c5_step, if_neg (by linarith)]

/-- Witness for `C5_overscroll_switch` at threshold `3/2` (two calls). -/
theorem C5_overscroll_switch_witness :
    ((1 : ℚ) < 3 / 2 ∧ (3 / 2 : ℚ) ≤ (2 : ℕ) ∧ ((2 : ℕ) : ℚ) - 1 < 3 / 2)
    ∧ (c5result (3 / 2) ((2 : ℕ) - 1) = some Direction.left
        ∧ c5iter (3 / 2) 2 = c5state 0
        ∧ c5result (3 / 2) 2 = none) :=
  ⟨⟨by norm_num, by norm_num, by norm_num⟩,
    ((C5_overscroll_switch (3 / 2) 2 (by norm_num) (by norm_num)
      (by norm_num)).2.1),
    ((C5_overscroll_switch (3 / 2) 2 (by norm_num) (by norm_num)
      (by norm_num)).2.2.1),
    ((C5_overscroll_switch (3 / 2) 2 (by norm_num) (by norm_num)
      (by norm_num)).2.2.2)⟩

/-- **C4**: with at least one column and cached screen geometry, a single
`scroll_by_delta delta` call sets the stored offset to the raw advance
`offset + delta × (selected column width + gap)` clamped to
`[min_offset, max_offset]` (bounds shifted by the center-override delta
when a center override is active); hence the offset is inside the bounds
after every call, and any sequence of calls keeps it there. -/
theorem C4_scroll_clamp (set : ScrollSettings) (s : ScrollState) (δ : ℚ)
    (deltas : List ℚ)
    (hw : 0 < s.last_screen_width) (hcols : s.columns ≠ [])
    (hg : 0 ≤ s.last_gap_x) :
    ((scroll_by_delta set s δ).1.scroll_offset_px
        = rustClamp (s.scroll_offset_px + δ * scrollStep set s)
            (scrollMinOffset s) (scrollMaxOffset set s))
    ∧ (scrollMinOffset s ≤ (scroll_by_delta set s δ).1.scroll_offset_px
        ∧ (scroll_by_delta set s δ).1.scroll_offset_px ≤ scrollMaxOffset set s)
    ∧ (scrollMinOffset s ≤ s.scroll_offset_px →
        s.scroll_offset_px ≤ scrollMaxOffset set s →
        scrollMinOffset s ≤ (scrollSeq set s deltas).scroll_offset_px
          ∧ (scrollSeq set s deltas).scroll_offset_px ≤ scrollMaxOffset set s)
    ∧ (deltas ≠ [] →
        scrollMinOffset s ≤ (scrollSeq set s deltas).scroll_offset_px
          ∧ (scrollSeq set s deltas).scroll_offset_px ≤ scrollMaxOffset set s) := by
  have hw' : ¬ s.last_screen_width ≤ 0 := not_le.mpr hw
  obtain ⟨a, ha⟩ := scroll_by_delta_shape set s δ hw' hcols hg
  refine ⟨by rw [ha], scroll_by_delta_bounds set s δ hw' hcols hg, ?_, ?_⟩
  · intro h1 h2
    exact scrollSeq_bounds set deltas s hw' hcols hg h1 h2
  · intro hne
    obtain ⟨d, ds, rfl⟩ := List.exists_cons_of_ne_nil hne
    obtain ⟨hc, hsw, hgx, hmin, hmax⟩ := scroll_by_delta_geom set s d hw' hcols hg
    have hb := scroll_by_delta_bounds set s d hw' hcols hg
    have hrec := scrollSeq_bounds set ds (scroll_by_delta set s d).1
      (by rw [hsw]; exact hw') (by rw [hc]; exact hcols) (by rw [hgx]; exact hg)
      (by rw [hmin]; exact hb.1) (by rw [hmax]; exact hb.2)
    rw [hmin, hmax] at hrec
    exact hrec

/-- Witness for `C4_scroll_clamp` on the two-column state with the call
sequence `[-1, 3, -1/2]`. -/
theorem C4_scroll_clamp_witness :
    ((0 : ℚ) < (c5state 0).last_screen_width ∧ (c5state 0).columns ≠ []
      ∧ (0 : ℚ) ≤ (c5state 0).last_gap_x)
    ∧ (scrollMinOffset (c5state 0)
          ≤ (scroll_by_delta (c5set 2) (c5state 0) 1).1.scroll_offset_px
        ∧ (scroll_by_delta (c5set 2) (c5state 0) 1).1.scroll_offset_px
          ≤ scrollMaxOffset (c5set 2) (c5state 0)) :=
  ⟨⟨by norm_num [c5state], by simp [c5state], by norm_num [c5state]⟩,
    (C4_scroll_clamp (c5set 2) (c5state 0) 1 [-1, 3, -1/2]
      (by norm_num [c5state]) (by simp [c5state])
      (by norm_num [c5state])).2.1⟩

/-- Invariant of C10: every column of the layout holds at least one window. -/
def NoEmptyCols (s : ScrollState) : Prop := ∀ c ∈ s.columns, c.windows ≠ []

theorem align_columns (s : ScrollState) :
    (align_scroll_to_selected s).columns = s.columns := by
  unfold align_scroll_to_selected
  split_ifs
  · rfl
  · dsimp only
    split <;> rfl

theorem clamp_columns (s : ScrollState) :
    (clamp_scroll_offset s).columns = s.columns := by
  unfold clamp_scroll_offset
  split_ifs <;> rfl

theorem idxOf?_get? {w : WindowId} : ∀ {l : List WindowId} {i : Nat},
    idxOf? w l = some i → l.get? i = some w := by
  intro l
  induction l with
  | nil => intro i h; simp [idxOf?] at h
  | cons x xs ih =>
    intro i h
    unfold idxOf? at h
    split_ifs at h with hx
    · cases h
      simp [hx]
    · cases hj : idxOf? w xs with
      | none => rw [hj] at h; simp at h
      | some j =>
        rw [hj] at h
        simp at h
        subst h
        simpa using ih hj

theorem locateGo_spec (wid : WindowId) :
    ∀ (cols : List ScrollColumn) (i ci ri : Nat),
      locateGo wid i cols = some (ci, ri) →
      i ≤ ci ∧ ∃ col, cols.get? (ci - i) = some col
        ∧ col.windows.get? ri = some wid := by
  intro cols
  induction cols with
  | nil => intro i ci ri h; simp [locateGo] at h
  | cons c cs ih =>
    intro i ci ri h
    unfold locateGo at h
    cases hx : idxOf? wid c.windows with
    | some r =>
      rw [hx] at h
      simp only [Option.some_inj, Prod.mk.injEq] at h
      obtain ⟨rfl, rfl⟩ := h
      exact ⟨le_rfl, c, by simp, idxOf?_get? hx⟩
    | none =>
      rw [hx] at h
      obtain ⟨hle, col, hg, hw⟩ := ih (i + 1) ci ri h
      refine ⟨by omega, col, ?_, hw⟩
      have hci : ci - i = (ci - (i + 1)) + 1 := by omega
      rw [hci]
      simpa using hg

theorem locate_spec {s : ScrollState} {wid : WindowId} {ci ri : Nat}
    (h : s.locate wid = some (ci, ri)) :
    ∃ col, s.columns.get? ci = some col ∧ col.windows.get? ri = some wid := by
  obtain ⟨_, col, hg, hw⟩ := locateGo_spec wid s.columns 0 ci ri h
  exact ⟨col, by simpa using hg, hw⟩

theorem mem_updAt {cols : List ScrollColumn} {i : Nat}
    {f : ScrollColumn → ScrollColumn} {c : ScrollColumn}
    (h : c ∈ updAt cols i f) :
    c ∈ cols ∨ ∃ x, cols.get? i = some x ∧ c = f x := by
  unfold updAt at h
  cases hg : cols.get? i with
  | none => rw [hg] at h; exact Or.inl h
  | some x =>
    rw [hg] at h
    rcases List.mem_or_eq_of_mem_set h with hc | rfl
    · exact Or.inl hc
    · exact Or.inr ⟨x, rfl, rfl⟩

theorem mem_insertAt {cols : List ScrollColumn} {i : Nat}
    {x c : ScrollColumn} (h : c ∈ insertAt cols i x) : c = x ∨ c ∈ cols := by
  unfold insertAt at h
  rcases List.mem_append.mp h with h1 | h2
  · exact Or.inr (List.take_subset i cols h1)
  · rcases List.mem_cons.mp h2 with rfl | h3
    · exact Or.inl rfl
    · exact Or.inr (List.drop_subset i cols h3)

theorem mem_listSwapAt {α : Type} {xs : List α} {i j : Nat} {c : α}
    (h : c ∈ listSwapAt xs i j) : c ∈ xs := by
  unfold listSwapAt at h
  cases hi : xs.get? i with
  | none => rw [hi] at h; exact h
  | some a =>
    cases hj : xs.get? j with
    | none => rw [hi, hj] at h; exact h
    | some b =>
      rw [hi, hj] at h
      rcases List.mem_or_eq_of_mem_set h with h1 | rfl
      · rcases List.mem_or_eq_of_mem_set h1 with h2 | rfl
        · exact h2
        · exact List.get?_mem hj
      · exact List.get?_mem hi

theorem listSwapAt_length {α : Type} (xs : List α) (i j : Nat) :
    (listSwapAt xs i j).length = xs.length := by
  unfold listSwapAt
  cases hi : xs.get? i <;> cases hj : xs.get? j <;> simp

theorem eraseIdx_set : ∀ (cols : List ScrollColumn) (i : Nat) (v : ScrollColumn),
    (cols.set i v).eraseIdx i = cols.eraseIdx i := by
  intro cols
  induction cols with
  | nil => intro i v; rfl
  | cons c cs ih =>
    intro i v
    cases i with
    | zero => rfl
    | succ n => simp only [List.set, List.eraseIdx]; rw [ih]

theorem removal_core {cols : List ScrollColumn} (ci ri : Nat)
    (h : ∀ c ∈ cols, c.windows ≠ []) :
    ∀ c ∈ (if ((((updAt cols ci
              (fun c => { c with windows := c.windows.eraseIdx ri })).get?
            ci).map ScrollColumn.windows).getD []).isEmpty = true
           then (updAt cols ci
              (fun c => { c with windows := c.windows.eraseIdx ri })).eraseIdx ci
           else updAt cols ci
              (fun c => { c with windows := c.windows.eraseIdx ri })),
      c.windows ≠ [] := by
  intro c hc
  unfold updAt at hc
  cases hg : cols.get? ci with
  | none =>
    rw [hg] at hc
    split_ifs at hc
    · exact h c ((List.eraseIdx_sublist cols ci).subset hc)
    · exact h c hc
  | some x =>
    rw [hg] at hc
    have hlt : ci < cols.length := by
      by_contra hn
      rw [List.get?_eq_none.mpr (le_of_not_lt hn)] at hg
      exact Option.noConfusion hg
    split_ifs at hc with hE
    · rw [eraseIdx_set] at hc
      exact h c ((List.eraseIdx_sublist cols ci).subset hc)
    · rcases List.mem_or_eq_of_mem_set hc with hmem | rfl
      · exact h c hmem
      · have hset : (cols.set ci
            { x with windows := x.windows.eraseIdx ri }).get? ci
            = some { x with windows := x.windows.eraseIdx ri } :=
          List.get?_set_eq_of_lt _ hlt
        rw [hset] at hE
        simpa using hE

theorem insert_column_after_noempty {s : ScrollState} (h : NoEmptyCols s)
    (i : Nat) (wid : WindowId) : NoEmptyCols (insert_column_after s i wid) := by
  unfold insert_column_after
  intro c hc
  rw [align_columns] at hc
  dsimp only at hc
  rcases mem_insertAt hc with rfl | hmem
  · simp
  · exact h c hmem

theorem insert_column_at_end_noempty {s : ScrollState} (h : NoEmptyCols s)
    (wid : WindowId) : NoEmptyCols (insert_column_at_end s wid) := by
  unfold insert_column_at_end
  intro c hc
  rw [align_columns] at hc
  dsimp only at hc
  rcases List.mem_append.mp hc with hmem | hx
  · exact h c hmem
  · rcases List.mem_cons.mp hx with rfl | hx'
    · simp
    · simp at hx'

theorem mem_ite_cols {P : Prop} [Decidable P] {A B : List ScrollColumn}
    {c : ScrollColumn} (h : c ∈ (if P then A else B)) : c ∈ A ∨ c ∈ B := by
  split at h
  · exact Or.inl h
  · exact Or.inr h

theorem remove_window_columns (s : ScrollState) (wid : WindowId) :
    (s.remove_window wid).columns
      = match s.locate wid with
        | none => s.columns
        | some (ci, ri) =>
          if ((((updAt s.columns ci
                (fun c => { c with windows := c.windows.eraseIdx ri })).get?
              ci).map ScrollColumn.windows).getD []).isEmpty = true
          then (updAt s.columns ci
              (fun c => { c with windows := c.windows.eraseIdx ri })).eraseIdx ci
          else updAt s.columns ci
              (fun c => { c with windows := c.windows.eraseIdx ri }) := by
  unfold ScrollState.remove_window
  cases s.locate wid with
  | none => rfl
  | some p =>
    obtain ⟨ci, ri⟩ := p
    dsimp only
    rw [clamp_columns]
    split_ifs <;> rfl

theorem remove_window_noempty {s : ScrollState} (h : NoEmptyCols s)
    (wid : WindowId) : NoEmptyCols (s.remove_window wid) := by
  intro c hc
  rw [remove_window_columns] at hc
  cases hloc : s.locate wid with
  | none => rw [hloc] at hc; exact h c hc
  | some p =>
    obtain ⟨ci, ri⟩ := p
    rw [hloc] at hc
    exact removal_core ci ri h c hc

theorem move_window_to_column_end_noempty {s : ScrollState}
    (h : NoEmptyCols s) (wid : WindowId) (tc : Nat) :
    NoEmptyCols (move_window_to_column_end s wid tc) := by
  unfold move_window_to_column_end
  cases hloc : s.locate wid with
  | none => exact h
  | some p =>
    obtain ⟨ci, ri⟩ := p
    dsimp only
    by_cases hci : ci = tc
    · rw [if_pos hci]; exact h
    · rw [if_neg hci]
      intro c hc
      rw [align_columns] at hc
      rcases mem_ite_cols hc with hA | hB
      · rcases List.mem_append.mp hA with hm | hx
        · exact removal_core ci ri h c hm
        · rcases List.mem_cons.mp hx with rfl | hx'
          · simp
          · simp at hx'
      · rcases mem_updAt hB with hm | ⟨x, hg, rfl⟩
        · exact removal_core ci ri h c hm
        · simp

theorem stacked_extract_core {s : ScrollState} (h : NoEmptyCols s)
    {ci ri : Nat}
    (hlen : 1 < (((s.columns.get? ci).map ScrollColumn.windows).getD []).length) :
    ∀ c ∈ updAt s.columns ci
        (fun c => { c with windows := c.windows.eraseIdx ri }),
      c.windows ≠ [] := by
  intro c hc
  rcases mem_updAt hc with hm | ⟨x, hg, rfl⟩
  · exact h c hm
  · rw [hg] at hlen
    simp only [Option.map_some', Option.getD_some] at hlen
    dsimp only
    intro hnil
    have hle := List.length_eraseIdx x.windows ri
    rw [hnil] at hle
    simp only [List.length_nil] at hle
    split_ifs at hle <;> omega

theorem move_selected_window_horizontal_noempty {s : ScrollState}
    (h : NoEmptyCols s) (dir : Direction) :
    NoEmptyCols (move_selected_window_horizontal s dir).1 := by
  unfold move_selected_window_horizontal
  cases hsel : s.selected with
  | none => exact h
  | some sel =>
    dsimp only
    cases hloc : s.locate sel with
    | none => exact h
    | some p =>
      obtain ⟨ci, ri⟩ := p
      dsimp only
      by_cases hlen :
          1 < (((s.columns.get? ci).map ScrollColumn.windows).getD []).length
      · rw [if_pos hlen]
        have hcore := @stacked_extract_core s h ci ri hlen
        cases dir with
        | left =>
          intro c hc
          rcases mem_insertAt hc with rfl | hm
          · simp
          · exact hcore c hm
        | right =>
          intro c hc
          rcases mem_insertAt hc with rfl | hm
          · simp
          · exact hcore c hm
        | up => exact hcore
        | down => exact hcore
      · rw [if_neg hlen]
        cases dir with
        | left =>
          dsimp only
          split
          · exact h
          · intro c hc
            exact h c (mem_listSwapAt hc)
        | right =>
          dsimp only
          split
          · exact h
          · intro c hc
            exact h c (mem_listSwapAt hc)
        | up => exact h
        | down => exact h

theorem move_selected_window_vertical_noempty {s : ScrollState}
    (h : NoEmptyCols s) (dir : Direction) :
    NoEmptyCols (move_selected_window_vertical s dir).1 := by
  unfold move_selected_window_vertical
  cases hloc : s.selected_location with
  | none => exact h
  | some p =>
    obtain ⟨ci, ri⟩ := p
    dsimp only
    split
    · exact h
    · next ti _ =>
      intro c hc
      rcases mem_updAt hc with hm | ⟨x, hg, rfl⟩
      · exact h c hm
      · have hxne : x.windows ≠ [] := h x (List.get?_mem hg)
        rw [hg]
        simp only [Option.map_some', Option.getD_some]
        intro hnil
        have hl := listSwapAt_length x.windows ri ti
        rw [hnil] at hl
        simp only [List.length_nil] at hl
        exact hxne (List.length_eq_zero.mp hl.symm)

theorem set_ne_nil {l : List WindowId} (hne : l ≠ []) (i : Nat) (v : WindowId) :
    l.set i v ≠ [] := by
  intro hn
  have hlen : (l.set i v).length = 0 := by rw [hn]; rfl
  rw [List.length_set] at hlen
  exact hne (List.length_eq_zero.mp hlen)

theorem updAt_set_noempty {cols : List ScrollColumn}
    (h : ∀ c ∈ cols, c.windows ≠ []) (i ri : Nat) (w : WindowId) :
    ∀ c ∈ updAt cols i (fun c => { c with windows := c.windows.set ri w }),
      c.windows ≠ [] := by
  intro c hc
  rcases mem_updAt hc with hm | ⟨x, hg, rfl⟩
  · exact h c hm
  · exact set_ne_nil (h x (List.get?_mem hg)) ri w

theorem scroll_swap_windows_noempty {s : ScrollState} (h : NoEmptyCols s)
    (a b : WindowId) : NoEmptyCols (scroll_swap_windows s a b).1 := by
  unfold scroll_swap_windows
  cases hla : s.locate a with
  | none => exact h
  | some pa =>
    cases hlb : s.locate b with
    | none => exact h
    | some pb =>
      obtain ⟨ac, ar⟩ := pa
      obtain ⟨bc, br⟩ := pb
      dsimp only
      split_ifs
      · intro c hc
        rcases mem_updAt hc with hm | ⟨x, hg, rfl⟩
        · exact h c hm
        · dsimp only
          intro hnil
          have hl := listSwapAt_length x.windows ar br
          rw [hnil] at hl
          exact h x (List.get?_mem hg) (List.length_eq_zero.mp hl.symm)
      · intro c hc
        exact updAt_set_noempty (updAt_set_noempty h ac ar b) bc br a c hc

theorem unstack_noempty {s : ScrollState} (h : NoEmptyCols s) :
    NoEmptyCols (unstack_parent_of_selection s) := by
  unfold unstack_parent_of_selection
  cases hloc : s.selected_location with
  | none => exact h
  | some p =>
    obtain ⟨ci, ri⟩ := p
    dsimp only
    split_ifs with hlen
    · exact h
    · obtain ⟨sel, hsel, hlocsel⟩ := Option.bind_eq_some.mp hloc
      obtain ⟨col, hg, hw⟩ := locate_spec hlocsel
      intro c hc
      rcases List.mem_append.mp hc with hc1 | hc2
      · rcases List.mem_append.mp hc1 with hc3 | hc4
        · have hm : c ∈ updAt s.columns ci (fun c =>
              { c with windows :=
                  (((s.columns.get? ci).map ScrollColumn.windows).getD
                    []).filter (fun w =>
                      w = ((((s.columns.get? ci).map
                        ScrollColumn.windows).getD []).get? ri).getD ⟨0, 0⟩) }) :=
            List.take_subset _ _ hc3
          rcases mem_updAt hm with hmm | ⟨x, hgx, rfl⟩
          · exact h c hmm
          · rw [hg] at hgx
            cases hgx
            dsimp only
            rw [hg]
            simp only [Option.map_some', Option.getD_some, hw, Option.getD_some]
            intro hnil
            have : sel ∈ col.windows.filter (fun w => w = sel) := by
              rw [List.mem_filter]
              exact ⟨List.get?_mem hw, by simp⟩
            rw [hnil] at this
            simp at this
        · simp only [List.mem_map] at hc4
          obtain ⟨w, _, rfl⟩ := hc4
          simp
      · have hm : c ∈ updAt s.columns ci (fun c =>
            { c with windows :=
                (((s.columns.get? ci).map ScrollColumn.windows).getD
                  []).filter (fun w =>
                    w = ((((s.columns.get? ci).map
                      ScrollColumn.windows).getD []).get? ri).getD ⟨0, 0⟩) }) :=
          List.drop_subset _ _ hc2
        rcases mem_updAt hm with hmm | ⟨x, hgx, rfl⟩
        · exact h c hmm
        · rw [hg] at hgx
          cases hgx
          dsimp only
          rw [hg]
          simp only [Option.map_some', Option.getD_some, hw, Option.getD_some]
          intro hnil
          have : sel ∈ col.windows.filter (fun w => w = sel) := by
            rw [List.mem_filter]
            exact ⟨List.get?_mem hw, by simp⟩
          rw [hnil] at this
          simp at this

theorem unjoin_noempty {s : ScrollState} (h : NoEmptyCols s) :
    NoEmptyCols (unjoin_selection s) := by
  unfold unjoin_selection
  cases hloc : s.selected_location with
  | none => exact h
  | some p =>
    obtain ⟨ci, ri⟩ := p
    dsimp only
    split_ifs with hlen
    · exact h
    · intro c hc
      rw [clamp_columns, align_columns] at hc
      rcases mem_insertAt hc with rfl | hm
      · simp
      · exact stacked_extract_core h (by omega) c hm

theorem foldl_move_noempty (tc : Nat) :
    ∀ (ws : List WindowId) (st : ScrollState), NoEmptyCols st →
      NoEmptyCols (ws.foldl (fun st w => move_window_to_column_end st w tc) st) := by
  intro ws
  induction ws with
  | nil => intro st hst; exact hst
  | cons w ws ih =>
    intro st hst
    exact ih _ (move_window_to_column_end_noempty hst w tc)

theorem apply_stacking_noempty {s : ScrollState} (h : NoEmptyCols s) :
    NoEmptyCols (apply_stacking_to_parent_of_selection s) := by
  unfold apply_stacking_to_parent_of_selection
  cases s.selected_location with
  | none => exact h
  | some p =>
    obtain ⟨ci, ri⟩ := p
    dsimp only
    split
    · exact h
    · split_ifs
      · exact h
      · exact foldl_move_noempty ci _ s h

theorem join_noempty {s : ScrollState} (h : NoEmptyCols s) (dir : Direction) :
    NoEmptyCols (join_selection_with_direction s dir) := by
  unfold join_selection_with_direction
  cases s.selected with
  | none => exact h
  | some sel =>
    dsimp only
    cases s.selected_location with
    | none => exact h
    | some p =>
      obtain ⟨ci, ri⟩ := p
      dsimp only
      split
      · exact h
      · exact move_window_to_column_end_noempty h _ _

theorem scroll_add_noempty {s : ScrollState} (h : NoEmptyCols s)
    (wid : WindowId) : NoEmptyCols (scroll_add_window_after_selection s wid) := by
  unfold scroll_add_window_after_selection
  cases s.selected_location with
  | some p =>
    obtain ⟨ci, _⟩ := p
    exact insert_column_after_noempty h ci wid
  | none =>
    dsimp only
    split_ifs
    · exact insert_column_at_end_noempty h wid
    · exact insert_column_after_noempty h 0 wid

theorem scroll_move_selection_noempty {s : ScrollState} (h : NoEmptyCols s)
    (dir : Direction) : NoEmptyCols (scroll_move_selection s dir).1 := by
  unfold scroll_move_selection
  cases dir <;> dsimp only <;> split_ifs <;>
    first
      | (intro c hc
         rw [align_columns] at hc
         exact move_selected_window_horizontal_noempty h _ c hc)
      | exact move_selected_window_horizontal_noempty h _
      | (intro c hc
         rw [align_columns] at hc
         exact move_selected_window_vertical_noempty h _ c hc)
      | exact move_selected_window_vertical_noempty h _

theorem scroll_reconcile_noempty :
    ∀ (s : ScrollState) (ds cs : List WindowId), NoEmptyCols s →
      NoEmptyCols (scroll_reconcile s ds cs) := by
  intro s ds cs
  induction s, ds, cs using scroll_reconcile.induct with
  | case1 s =>
    intro h
    rw [scroll_reconcile]
    exact h
  | case2 s d ds ih =>
    intro h
    rw [scroll_reconcile]
    exact ih (insert_column_at_end_noempty h d)
  | case3 s c cs ih =>
    intro h
    rw [scroll_reconcile]
    exact ih (remove_window_noempty h c)
  | case4 s ds c cs ih =>
    intro h
    rw [scroll_reconcile, if_pos rfl]
    exact ih h
  | case5 s d ds c cs hne hlt ih =>
    intro h
    rw [scroll_reconcile, if_neg hne, if_pos hlt]
    exact ih (insert_column_at_end_noempty h d)
  | case6 s d ds c cs hne hlt ih =>
    intro h
    rw [scroll_reconcile, if_neg hne, if_neg hlt]
    exact ih (remove_window_noempty h c)

theorem scroll_set_windows_for_app_noempty {s : ScrollState}
    (h : NoEmptyCols s) (pid : Int) (desired : List WindowId) :
    NoEmptyCols (scroll_set_windows_for_app s pid desired) := by
  unfold scroll_set_windows_for_app
  exact scroll_reconcile_noempty s _ _ h

/-- The states of a Scrolling layout reachable from a fresh layout through
the public operation set of `ScrollingLayoutSystem`. -/
inductive ScrollReachable : ScrollState → Prop where
  | fresh (ratio : ℚ) : ScrollReachable (ScrollState.new ratio)
  | add {s : ScrollState} (wid : WindowId) : ScrollReachable s →
      ScrollReachable (scroll_add_window_after_selection s wid)
  | remove {s : ScrollState} (wid : WindowId) : ScrollReachable s →
      ScrollReachable (s.remove_window wid)
  | moveSel {s : ScrollState} (dir : Direction) : ScrollReachable s →
      ScrollReachable (scroll_move_selection s dir).1
  | join {s : ScrollState} (dir : Direction) : ScrollReachable s →
      ScrollReachable (join_selection_with_direction s dir)
  | stackJoin {s : ScrollState} : ScrollReachable s →
      ScrollReachable (apply_stacking_to_parent_of_selection s)
  | unstack {s : ScrollState} : ScrollReachable s →
      ScrollReachable (unstack_parent_of_selection s)
  | unjoin {s : ScrollState} : ScrollReachable s →
      ScrollReachable (unjoin_selection s)
  | swap {s : ScrollState} (a b : WindowId) : ScrollReachable s →
      ScrollReachable (scroll_swap_windows s a b).1
  | reconcile {s : ScrollState} (pid : Int) (desired : List WindowId) :
      ScrollReachable s → ScrollReachable (scroll_set_windows_for_app s pid desired)
  | insertAfterCol {s : ScrollState} (i : Nat) (wid : WindowId) :
      ScrollReachable s → ScrollReachable (insert_column_after s i wid)
  | insertEndCol {s : ScrollState} (wid : WindowId) : ScrollReachable s →
      ScrollReachable (insert_column_at_end s wid)

/-- **C10**: in the Scrolling layout system every column of every reachable
layout state contains at least one window: each public operation that can
empty a column (removing a window, moving a window out of its column,
extracting the selected window horizontally, unstacking a column) also
deletes the emptied column, so a state with an empty column is unreachable
through the public operation set. -/
theorem C10_scroll_no_empty_columns {s : ScrollState}
    (h : ScrollReachable s) : NoEmptyCols s := by
  induction h with
  | fresh ratio => intro c hc; simp [ScrollState.new] at hc
  | add wid _ ih => exact scroll_add_noempty ih wid
  | remove wid _ ih => exact remove_window_noempty ih wid
  | moveSel dir _ ih => exact scroll_move_selection_noempty ih dir
  | join dir _ ih => exact join_noempty ih dir
  | stackJoin _ ih => exact apply_stacking_noempty ih
  | unstack _ ih => exact unstack_noempty ih
  | unjoin _ ih => exact unjoin_noempty ih
  | swap a b _ ih => exact scroll_swap_windows_noempty ih a b
  | reconcile pid desired _ ih => exact scroll_set_windows_for_app_noempty ih pid desired
  | insertAfterCol i wid _ ih => exact insert_column_after_noempty ih i wid
  | insertEndCol wid _ ih => exact insert_column_at_end_noempty ih wid

/-- Witness for `C10_scroll_no_empty_columns`: a freshly created layout,
with two windows added and one removed, has no empty column. -/
theorem C10_scroll_no_empty_columns_witness :
    NoEmptyCols ((scroll_add_window_after_selection
        (scroll_add_window_after_selection (ScrollState.new (1 / 2))
          ⟨1, 1⟩) ⟨1, 2⟩).remove_window ⟨1, 1⟩) :=
  C10_scroll_no_empty_columns
    (ScrollReachable.remove ⟨1, 1⟩
      (ScrollReachable.add ⟨1, 2⟩
        (ScrollReachable.add ⟨1, 1⟩ (ScrollReachable.fresh (1 / 2)))))

/-! ## Window→space resolution (`Reactor::best_space_for_frame`)

The geometry helpers (`CGRect::mid`, `contains`, `intersection`, `area`
from `sys/geometry.rs`) are not among the sources.  They are modelled from
the spec with the standard rectangle semantics: the center of a rectangle,
point containment (half-open on the far edges, as `CGRectContainsPoint`),
and the area of the axis-aligned intersection (zero when disjoint).  The
`as i64` cast that `best_space_for_frame` applies to each area is modelled
by the integer floor (areas are non-negative, so floor agrees with Rust's
truncation toward zero). -/

/-- A point with rational coordinates. -/
structure PointQ where
  x : ℚ
  y : ℚ
deriving DecidableEq

/-- `CGRect` (origin + size) with rational coordinates. -/
structure RectQ where
  x : ℚ
  y : ℚ
  w : ℚ
  h : ℚ
deriving DecidableEq

/-- Modelled from the spec: `CGRect::mid`, the center of the rectangle. -/
def RectQ.midPt (r : RectQ) : PointQ := ⟨r.x + r.w / 2, r.y + r.h / 2⟩

/-- Modelled from the spec: `CGRect::contains` on a point
(`CGRectContainsPoint` semantics: closed on the near edges, open on the
far edges). -/
def RectQ.containsPt (r : RectQ) (p : PointQ) : Bool :=
  r.x ≤ p.x && p.x < r.x + r.w && r.y ≤ p.y && p.y < r.y + r.h

/-- Modelled from the spec: the area of `a.intersection(b)` (zero when the
rectangles are disjoint). -/
def interArea (a b : RectQ) : ℚ :=
  max 0 (min (a.x + a.w) (b.x + b.w) - max a.x b.x)
    * max 0 (min (a.y + a.h) (b.y + b.h) - max a.y b.y)

/-- The `as i64` cast applied to an intersection area (areas are
non-negative, so the floor agrees with truncation toward zero). -/
def areaI64 (a b : RectQ) : Int := ⌊interArea a b⌋

/-- A `Screen` as read by `best_space_for_frame`: its frame and the space
currently shown on it. -/
structure ScreenM where
  frame : RectQ
  space : Option Nat
deriving DecidableEq

/-- Rust's `Iterator::max_by_key`: the maximum by key, returning the LAST
of several equally-maximal elements (fold keeping the accumulator only
while it is strictly greater). -/
def maxByKeyLast : List (Int × Nat) → Option (Int × Nat)
  | [] => none
  | x :: xs => some (xs.foldl (fun acc y => if acc.1 > y.1 then acc else y) x)

/-- `Reactor::best_space_for_frame`: the space of the first screen whose
frame contains the window frame's center; otherwise, among screens with a
positive (`i64`-truncated) intersection area with the frame, the space of
the `max_by_key` winner. -/
def best_space_for_frame (screens : List ScreenM) (frame : RectQ) :
    Option Nat :=
  let center := frame.midPt
  let byCenter := screens.findSome? (fun screen =>
    match screen.space with
    | none => none
    | some space =>
      if screen.frame.containsPt center then some space else none)
  match byCenter with
  | some space => some space
  | none =>
    let cands := screens.filterMap (fun screen =>
      match screen.space with
      | none => none
      | some space =>
        let area := areaI64 screen.frame frame
        if 0 < area then some (area, space) else none)
    (maxByKeyLast cands).map Prod.snd

theorem findSome?_unique {α : Type} (f : ScreenM → Option α) :
    ∀ (screens : List ScreenM) (i : Nat) (sc : ScreenM) (sp : α),
      screens.get? i = some sc → f sc = some sp →
      (∀ j sc', screens.get? j = some sc' → j ≠ i → f sc' = none) →
      screens.findSome? f = some sp := by
  intro screens
  induction screens with
  | nil => intro i sc sp hget; simp at hget
  | cons a l ih =>
    intro i sc sp hget hf hothers
    cases i with
    | zero =>
      simp only [List.get?_cons_zero, Option.some_inj] at hget
      subst hget
      rw [List.findSome?_cons, hf]
    | succ i =>
      have ha : f a = none := hothers 0 a (by simp) (by omega)
      rw [List.findSome?_cons, ha]
      exact ih i sc sp (by simpa using hget) hf
        (fun j sc' hj hne =>
          hothers (j + 1) sc' (by simpa using hj) (by omega))

theorem bsff_two (frame : RectQ) (s1 s2 : ScreenM) (sp1 sp2 : Nat)
    (h1 : s1.space = some sp1) (h2 : s2.space = some sp2)
    (hc1 : s1.frame.containsPt frame.midPt = false)
    (hc2 : s2.frame.containsPt frame.midPt = false)
    (hp1 : 0 < areaI64 s1.frame frame) (hp2 : 0 < areaI64 s2.frame frame) :
    best_space_for_frame [s1, s2] frame
      = some (if areaI64 s2.frame frame < areaI64 s1.frame frame
              then sp1 else sp2) := by
  unfold best_space_for_frame
  simp only [List.findSome?_cons, List.findSome?_nil, List.filterMap_cons,
    List.filterMap_nil, h1, h2, hc1, hc2]
  rw [if_pos hp1, if_pos hp2]
  unfold maxByKeyLast
  dsimp only [List.foldl]
  by_cases hlt : areaI64 s2.frame frame < areaI64 s1.frame frame
  · rw [if_pos hlt, if_pos hlt]
    simp
  · rw [if_neg hlt, if_neg hlt]
    simp

/-- **C2 (amended)**: (a) when the frame's center lies inside exactly one
screen's frame and that screen shows a space, `best_space_for_frame`
returns that screen's space, regardless of its position in iteration
order; (b) for a frame whose center is inside no screen but which overlaps
two screens with strictly different positive `i64`-truncated intersection
areas, it returns the space of the screen with the strictly larger
truncated area.  (The original claim, stated for the real-valued areas,
fails because of the `as i64` truncation; see `C2_counterexample`.) -/
theorem C2_best_space_resolution (screens : List ScreenM) (frame : RectQ)
    (i : Nat) (sc : ScreenM) (sp : Nat) (s1 s2 : ScreenM) (sp1 sp2 : Nat) :
    (screens.get? i = some sc → sc.space = some sp →
      sc.frame.containsPt frame.midPt = true →
      (∀ j sc', screens.get? j = some sc' → j ≠ i →
        sc'.frame.containsPt frame.midPt = false) →
      best_space_for_frame screens frame = some sp)
    ∧ (s1.space = some sp1 → s2.space = some sp2 →
      s1.frame.containsPt frame.midPt = false →
      s2.frame.containsPt frame.midPt = false →
      0 < areaI64 s1.frame frame → 0 < areaI64 s2.frame frame →
      areaI64 s1.frame frame ≠ areaI64 s2.frame frame →
      best_space_for_frame [s1, s2] frame
        = some (if areaI64 s2.frame frame < areaI64 s1.frame frame
                then sp1 else sp2)) := by
  constructor
  · intro hget hsp hin hothers
    have hfind := findSome?_unique
      (fun screen =>
        match screen.space with
        | none => none
        | some space =>
          if screen.frame.containsPt frame.midPt then some space else none)
      screens i sc sp hget
      (by dsimp only; rw [hsp]; simp [hin])
      (fun j sc' hj hne => by
        have hf := hothers j sc' hj hne
        dsimp only
        cases hsc' : sc'.space with
        | none => rfl
        | some sp' => simp [hf])
    unfold best_space_for_frame
    dsimp only
    rw [hfind]
  · intro h1 h2 hc1 hc2 hp1 hp2 _
    exact bsff_two frame s1 s2 sp1 sp2 h1 h2 hc1 hc2 hp1 hp2

/-- Witness for `C2_best_space_resolution`: part (a) on a single screen
containing the frame's center; part (b) on two screens with truncated
areas 5 and 6 (the second, larger one wins). -/
theorem C2_best_space_resolution_witness :
    best_space_for_frame [⟨⟨0, 0, 100, 100⟩, some 7⟩] ⟨10, 10, 20, 20⟩
        = some 7
    ∧ best_space_for_frame
        [⟨⟨0, 0, 100, 100⟩, some 10⟩, ⟨⟨150, 0, 100, 100⟩, some 20⟩]
        ⟨95, 10, 61, 1⟩ = some 20 := by
  have hA : areaI64 (⟨0, 0, 100, 100⟩ : RectQ) ⟨95, 10, 61, 1⟩ = 5 := by
    unfold areaI64 interArea
    norm_num [min_def, max_def]
  have hB : areaI64 (⟨150, 0, 100, 100⟩ : RectQ) ⟨95, 10, 61, 1⟩ = 6 := by
    unfold areaI64 interArea
    norm_num [min_def, max_def]
  constructor
  · exact (C2_best_space_resolution [⟨⟨0, 0, 100, 100⟩, some 7⟩]
      ⟨10, 10, 20, 20⟩ 0 ⟨⟨0, 0, 100, 100⟩, some 7⟩ 7
      ⟨⟨0, 0, 100, 100⟩, some 7⟩ ⟨⟨0, 0, 100, 100⟩, some 7⟩ 7 7).1
      rfl rfl
      (by simp only [RectQ.containsPt, RectQ.midPt]; norm_num)
      (fun j sc' hj hne => by
        cases j with
        | zero => exact absurd rfl hne
        | succ j => simp at hj)
  · have := (C2_best_space_resolution
      [⟨⟨0, 0, 100, 100⟩, some 10⟩, ⟨⟨150, 0, 100, 100⟩, some 20⟩]
      ⟨95, 10, 61, 1⟩ 0 ⟨⟨0, 0, 100, 100⟩, some 10⟩ 10
      ⟨⟨0, 0, 100, 100⟩, some 10⟩ ⟨⟨150, 0, 100, 100⟩, some 20⟩ 10 20).2
      rfl rfl
      (by simp only [RectQ.containsPt, RectQ.midPt]; norm_num)
      (by simp only [RectQ.containsPt, RectQ.midPt]; norm_num)
      (by rw [hA]; norm_num) (by rw [hB]; norm_num)
      (by rw [hA, hB]; norm_num)
    rw [this, hA, hB]
    norm_num

/-- **C2 counterexample**: the frame `(97.3, 10, 55, 1)` overlaps screen 1
(space 10) with real intersection area `2.7` and screen 2 (space 20) with
real area `2.3`; its center `(124.8, 10.5)` is inside neither screen.
Both real areas are positive and strictly different, and screen 1's is
strictly larger, yet `best_space_for_frame` returns space 20: the
`as i64` cast truncates both areas to `2`, and `max_by_key` then keeps the
last equally-maximal screen. -/
theorem C2_counterexample :
    interArea ⟨0, 0, 100, 100⟩ ⟨973/10, 10, 55, 1⟩ = 27/10
    ∧ interArea ⟨150, 0, 100, 100⟩ ⟨973/10, 10, 55, 1⟩ = 23/10
    ∧ ((0 : ℚ) < 23/10 ∧ (23/10 : ℚ) < 27/10)
    ∧ RectQ.containsPt ⟨0, 0, 100, 100⟩ (RectQ.midPt ⟨973/10, 10, 55, 1⟩)
        = false
    ∧ RectQ.containsPt ⟨150, 0, 100, 100⟩ (RectQ.midPt ⟨973/10, 10, 55, 1⟩)
        = false
    ∧ best_space_for_frame
        [⟨⟨0, 0, 100, 100⟩, some 10⟩, ⟨⟨150, 0, 100, 100⟩, some 20⟩]
        ⟨973/10, 10, 55, 1⟩ = some 20 := by
  have hA : areaI64 (⟨0, 0, 100, 100⟩ : RectQ) ⟨973/10, 10, 55, 1⟩ = 2 := by
    unfold areaI64 interArea
    norm_num [min_def, max_def]
  have hB : areaI64 (⟨150, 0, 100, 100⟩ : RectQ) ⟨973/10, 10, 55, 1⟩ = 2 := by
    unfold areaI64 interArea
    norm_num [min_def, max_def]
  have hc1 : RectQ.containsPt ⟨0, 0, 100, 100⟩
      (RectQ.midPt ⟨973/10, 10, 55, 1⟩) = false := by
    simp only [RectQ.containsPt, RectQ.midPt]
    norm_num
  have hc2 : RectQ.containsPt ⟨150, 0, 100, 100⟩
      (RectQ.midPt ⟨973/10, 10, 55, 1⟩) = false := by
    simp only [RectQ.containsPt, RectQ.midPt]
    norm_num
  have hmain := bsff_two ⟨973/10, 10, 55, 1⟩
    ⟨⟨0, 0, 100, 100⟩, some 10⟩ ⟨⟨150, 0, 100, 100⟩, some 20⟩ 10 20
    rfl rfl hc1 hc2 (by rw [hA]; norm_num) (by rw [hB]; norm_num)
  rw [hA, hB] at hmain
  norm_num at hmain
  refine ⟨?_, ?_, ⟨by norm_num, by norm_num⟩, hc1, hc2, hmain⟩
  · unfold interArea
    norm_num [min_def, max_def]
  · unfold interArea
    norm_num [min_def, max_def]

/-- **C3 (amended)**: when the fallback of `best_space_for_frame` compares
two screens whose `i64`-truncated intersection areas with the frame are
exactly equal (and positive), the space returned is that of the LAST such
screen in iteration order: Rust's `max_by_key` returns the last of several
equally-maximal elements. -/
theorem C3_tie_break_last (frame : RectQ) (s1 s2 : ScreenM) (sp1 sp2 : Nat)
    (h1 : s1.space = some sp1) (h2 : s2.space = some sp2)
    (hc1 : s1.frame.containsPt frame.midPt = false)
    (hc2 : s2.frame.containsPt frame.midPt = false)
    (hp : 0 < areaI64 s1.frame frame)
    (heq : areaI64 s1.frame frame = areaI64 s2.frame frame) :
    best_space_for_frame [s1, s2] frame = some sp2 := by
  have := bsff_two frame s1 s2 sp1 sp2 h1 h2 hc1 hc2 hp (heq ▸ hp)
  rw [this, if_neg (by omega)]

/-- Witness for `C3_tie_break_last`: two screens with equal positive
truncated areas; the second one's space is returned. -/
theorem C3_tie_break_last_witness :
    best_space_for_frame
      [⟨⟨0, 0, 100, 100⟩, some 31⟩, ⟨⟨150, 0, 100, 100⟩, some 32⟩]
      ⟨92, 10, 66, 20⟩ = some 32 := by
  have hA : areaI64 (⟨0, 0, 100, 100⟩ : RectQ) ⟨92, 10, 66, 20⟩ = 160 := by
    unfold areaI64 interArea
    norm_num [min_def, max_def]
  have hB : areaI64 (⟨150, 0, 100, 100⟩ : RectQ) ⟨92, 10, 66, 20⟩ = 160 := by
    unfold areaI64 interArea
    norm_num [min_def, max_def]
  exact C3_tie_break_last ⟨92, 10, 66, 20⟩
    ⟨⟨0, 0, 100, 100⟩, some 31⟩ ⟨⟨150, 0, 100, 100⟩, some 32⟩ 31 32
    rfl rfl
    (by simp only [RectQ.containsPt, RectQ.midPt]; norm_num)
    (by simp only [RectQ.containsPt, RectQ.midPt]; norm_num)
    (by rw [hA]; norm_num) (by rw [hA, hB])

/-- **C3 counterexample**: the frame `(90, 10, 70, 20)` has the same
positive truncated intersection area `200` with screen 1 (space 10) and
screen 2 (space 20), and its center `(125, 20)` is inside neither; the
first screen with the maximum area is screen 1, but
`best_space_for_frame` returns space 20 of the last screen. -/
theorem C3_counterexample :
    areaI64 ⟨0, 0, 100, 100⟩ ⟨90, 10, 70, 20⟩
        = areaI64 ⟨150, 0, 100, 100⟩ ⟨90, 10, 70, 20⟩
    ∧ (0 : Int) < areaI64 ⟨0, 0, 100, 100⟩ ⟨90, 10, 70, 20⟩
    ∧ RectQ.containsPt ⟨0, 0, 100, 100⟩ (RectQ.midPt ⟨90, 10, 70, 20⟩) = false
    ∧ RectQ.containsPt ⟨150, 0, 100, 100⟩ (RectQ.midPt ⟨90, 10, 70, 20⟩)
        = false
    ∧ best_space_for_frame
        [⟨⟨0, 0, 100, 100⟩, some 10⟩, ⟨⟨150, 0, 100, 100⟩, some 20⟩]
        ⟨90, 10, 70, 20⟩ = some 20
    ∧ best_space_for_frame
        [⟨⟨0, 0, 100, 100⟩, some 10⟩, ⟨⟨150, 0, 100, 100⟩, some 20⟩]
        ⟨90, 10, 70, 20⟩ ≠ some 10 := by
  have hA : areaI64 (⟨0, 0, 100, 100⟩ : RectQ) ⟨90, 10, 70, 20⟩ = 200 := by
    unfold areaI64 interArea
    norm_num [min_def, max_def]
  have hB : areaI64 (⟨150, 0, 100, 100⟩ : RectQ) ⟨90, 10, 70, 20⟩ = 200 := by
    unfold areaI64 interArea
    norm_num [min_def, max_def]
  have hc1 : RectQ.containsPt ⟨0, 0, 100, 100⟩
      (RectQ.midPt ⟨90, 10, 70, 20⟩) = false := by
    simp only [RectQ.containsPt, RectQ.midPt]
    norm_num
  have hc2 : RectQ.containsPt ⟨150, 0, 100, 100⟩
      (RectQ.midPt ⟨90, 10, 70, 20⟩) = false := by
    simp only [RectQ.containsPt, RectQ.midPt]
    norm_num
  have hmain := bsff_two ⟨90, 10, 70, 20⟩
    ⟨⟨0, 0, 100, 100⟩, some 10⟩ ⟨⟨150, 0, 100, 100⟩, some 20⟩ 10 20
    rfl rfl hc1 hc2 (by rw [hA]; norm_num) (by rw [hB]; norm_num)
  rw [hA, hB] at hmain
  norm_num at hmain
  exact ⟨by rw [hA, hB], by rw [hA]; norm_num, hc1, hc2, hmain,
    by rw [hmain]; simp⟩

/-! ## `LayoutEngine::handle_command` — the `ToggleWindowFloating` branch
(`layout_engine/engine.rs`)

The branch is embedded in an `Except String` monad in which Rust's
`Option::expect` becomes `Except.error` carrying the panic message; every
other failing lookup is an `Option` handled with a local fallback, exactly
as in the source.  The virtual-workspace and floating managers are not
among the sources; following the spec ("every space has at most one
active virtual workspace"; the floating manager "tracks which windows are
excluded from tiling"), their query maps are modelled as association
lists carried in the engine state. -/

/-- The parts of `LayoutEngine` state read or written by the
`ToggleWindowFloating` branch of `handle_command`. -/
structure EngineState where
  focused_window : Option WindowId
  floating : List WindowId
  last_floating_focus : Option WindowId
  workspace_for_window : List ((Nat × WindowId) × Nat)
  active_workspace : List (Nat × Nat)
  active_layout : List ((Nat × Nat) × Nat)
  tiled : List (Nat × WindowId)
  active_floating : List (Nat × WindowId)
deriving DecidableEq

/-- `VirtualWorkspaceManager::active_workspace` (modelled from the spec:
at most one active virtual workspace per space). -/
def lookupActiveWorkspace (e : EngineState) (s : Nat) : Option Nat :=
  (e.active_workspace.find? (fun p => p.1 = s)).map Prod.snd

/-- `VirtualWorkspaceManager::workspace_for_window` (modelled from the
spec: the workspace a window is assigned to on a space, when any). -/
def lookupWorkspaceForWindow (e : EngineState) (s : Nat) (w : WindowId) :
    Option Nat :=
  (e.workspace_for_window.find?
    (fun p => decide (p.1.1 = s ∧ p.1.2 = w))).map Prod.snd

/-- `WorkspaceLayouts::active` for a `(space, workspace)` pair. -/
def lookupActiveLayout (e : EngineState) (s ws : Nat) : Option Nat :=
  (e.active_layout.find? (fun p => decide (p.1.1 = s ∧ p.1.2 = ws))).map
    Prod.snd

/-- `LayoutEngine::workspace_and_layout`: resolve the active workspace and
its active layout, `none` when either is absent. -/
def workspace_and_layout (e : EngineState) (s : Nat) : Option (Nat × Nat) :=
  match lookupActiveWorkspace e s with
  | none => none
  | some ws =>
    match lookupActiveLayout e s ws with
    | none => none
    | some l => some (ws, l)

/-- The floating→tiled direction of the branch after the assigned
workspace has been resolved: re-add the window to the tiling tree when the
workspace has an active layout, drop the active-floating record, and clear
the floating flag and last floating focus. -/
def retileFloating (e : EngineState) (s ws : Nat) (wid : WindowId) :
    EngineState :=
  let e1 :=
    match lookupActiveLayout e s ws with
    | some _ => { e with tiled := (ws, wid) :: e.tiled }
    | none => e
  let e2 := { e1 with active_floating :=
    e1.active_floating.filter (fun p => decide (¬ (p.1 = s ∧ p.2 = wid))) }
  { e2 with floating := e2.floating.filter (fun w => w ≠ wid),
            last_floating_focus := none }

/-- `LayoutEngine::handle_command` restricted to
`LayoutCommand::ToggleWindowFloating` (engine.rs, the branch guarded by
`if let LayoutCommand::ToggleWindowFloating`).  The
`.expect("No active workspace available")` of the source is the only
`Except.error` that can occur. -/
def handle_toggle_window_floating (e : EngineState) (space : Option Nat) :
    Except String EngineState :=
  match e.focused_window with
  | none => Except.ok e
  | some wid =>
    let is_floating := wid ∈ e.floating
    if is_floating then
      match space with
      | some s =>
        match lookupWorkspaceForWindow e s wid with
        | some ws => Except.ok (retileFloating e s ws wid)
        | none =>
          match lookupActiveWorkspace e s with
          | some ws => Except.ok (retileFloating e s ws wid)
          | none => Except.error "No active workspace available"
      | none =>
        Except.ok { e with floating := e.floating.filter (fun w => w ≠ wid),
                           last_floating_focus := none }
    else
      let e1 :=
        match space with
        | some s =>
          let ea := { e with active_floating := (s, wid) :: e.active_floating }
          match workspace_and_layout ea s with
          | some (ws, _) =>
            { ea with tiled :=
                ea.tiled.filter (fun p => decide (¬ (p.1 = ws ∧ p.2 = wid))) }
          | none => ea
        | none => e
      Except.ok { e1 with floating := wid :: e1.floating,
                          last_floating_focus := some wid }

/-- The engine state of the C9 scenario: the focused window `w` is
floating, it has no workspace assignment on space 7, and space 7 has no
active virtual workspace. -/
def c9state : EngineState :=
  { focused_window := some ⟨1, 1⟩, floating := [⟨1, 1⟩],
    last_floating_focus := some ⟨1, 1⟩, workspace_for_window := [],
    active_workspace := [], active_layout := [], tiled := [],
    active_floating := [] }

/-- **C9**: contrary to the claim (and to the spec's error-handling rule
that nothing in the core panics on missing data), the
`ToggleWindowFloating` branch of `LayoutEngine::handle_command` contains a
reachable `.expect("No active workspace available")`: with a floating
focused window whose workspace lookup misses, on a space with no active
virtual workspace, the command panics instead of early-returning.  With
`space = none` the same state is handled without a panic, showing the
panic is specific to the missing-active-workspace lookup. -/
theorem C9_toggle_floating_panics :
    handle_toggle_window_floating c9state (some 7)
        = Except.error "No active workspace available"
    ∧ handle_toggle_window_floating c9state none
        = Except.ok { c9state with floating := [], last_floating_focus := none } := by
  constructor
  · rfl
  · rfl

/-! ## `SpaceEventHandler::handle_space_changed`
(`actor/reactor/events/space.rs`)

The handler is embedded as a function from an abstract reactor state and
an incoming space vector to the new state plus a trace of the pipeline
actions it performs (active-space recomputation, display-history
reconciliation, screen-space assignment, space-change finalization, forced
refresh, layout update, topology-commit attempt).  A no-op is a result
with an empty trace and an unchanged state.  The OS query
`space_is_fullscreen` is an environment parameter; the per-window moves
inside the fullscreen-repair loop go through the layout engine and are
abstracted into a `fullscreenRepair` trace entry (the concrete states used
in the theorems below have no fullscreen tracks, so that loop is empty). -/

/-- The parts of `Reactor` state read or written by
`handle_space_changed`.  `screens` holds each screen's current space
(`raw_spaces_for_current_screens`). -/
structure SpaceRx where
  screens : List (Option Nat)
  topology_relayout_pending : Bool
  churning_or_awaiting_commit : Bool
  mission_control_active : Bool
  pending_space_change : Option (List (Option Nat))
  fullscreen_by_space : List Nat
  stale_cleanup_suppressed : Bool
deriving DecidableEq

/-- The OS environment consulted by the handler. -/
structure SpaceEnv where
  space_is_fullscreen : Nat → Bool

/-- The observable pipeline actions of the handler. -/
inductive SpaceEffect where
  | recomputeActiveSpaces
  | reconcileSpaces
  | setScreenSpaces
  | finalizeSpaceChange
  | forceRefreshAllWindows
  | updateLayout
  | maybeCommitTopology
  | fullscreenRepair (sp : Nat)
deriving DecidableEq

/-- `Reactor::handle_fullscreen_space_transition`: blank out fullscreen
spaces in the vector; when every slot is a fullscreen space, report the
transition as handled; otherwise run the repair loop for non-fullscreen
spaces that have a recorded fullscreen track. -/
def handle_fullscreen_space_transition (env : SpaceEnv) (st : SpaceRx)
    (spaces : List (Option Nat)) :
    SpaceRx × List (Option Nat) × Bool × List SpaceEffect :=
  let isFsSlot := fun sl : Option Nat =>
    match sl with
    | some sp => env.space_is_fullscreen sp
    | none => false
  let saw_fullscreen := spaces.any isFsSlot
  let all_fullscreen := ¬ spaces.isEmpty ∧ spaces.all isFsSlot
  let blanked := spaces.map (fun sl =>
    match sl with
    | some sp => if env.space_is_fullscreen sp then none else some sp
    | none => none)
  if saw_fullscreen ∧ all_fullscreen then (st, blanked, true, [])
  else
    let refresh := spaces.filterMap (fun sl =>
      match sl with
      | some sp => if env.space_is_fullscreen sp then none else some sp
      | none => none)
    let r := refresh.foldl
      (fun (acc : SpaceRx × List SpaceEffect) sp =>
        if sp ∈ acc.1.fullscreen_by_space then
          ({ acc.1 with fullscreen_by_space :=
              acc.1.fullscreen_by_space.filter (fun x => x ≠ sp) },
           acc.2 ++ [SpaceEffect.fullscreenRepair sp, SpaceEffect.updateLayout])
        else acc)
      (st, [])
    (r.1, blanked, false, r.2)

/-- `SpaceEventHandler::handle_space_changed`: drop oversize vectors;
ignore exact duplicates of the currently-applied vector unless a topology
relayout is pending or the topology manager is churning/awaiting commit;
drop length mismatches during a pending topology change; divert through
the fullscreen-transition handler and the Mission-Control queue; handle
the all-`None` vector; and otherwise run the full space-change pipeline,
with a one-shot forced refresh when a topology relayout was pending. -/
def handle_space_changed (env : SpaceEnv) (st : SpaceRx)
    (spaces : List (Option Nat)) : SpaceRx × List SpaceEffect :=
  if st.screens.length < spaces.length then (st, [])
  else if spaces = st.screens ∧ ¬ st.topology_relayout_pending
      ∧ ¬ st.churning_or_awaiting_commit then (st, [])
  else if st.topology_relayout_pending ∧ spaces.length ≠ st.screens.length then
    (st, [])
  else
    let f := handle_fullscreen_space_transition env st spaces
    let st1 := f.1
    let spaces1 := f.2.1
    let handled := f.2.2.1
    let effs := f.2.2.2
    if handled then (st1, effs)
    else if st1.mission_control_active then
      ({ st1 with pending_space_change := some spaces1 }, effs)
    else if spaces1.all (fun sl => sl.isNone) then
      let st2 := { st1 with stale_cleanup_suppressed := true }
      let st3 :=
        if spaces1.length = st2.screens.length then { st2 with screens := spaces1 }
        else st2
      (st3, effs ++ [SpaceEffect.recomputeActiveSpaces])
    else if spaces1.length ≠ st1.screens.length then (st1, effs)
    else
      let st2 := { st1 with stale_cleanup_suppressed := false,
                            screens := spaces1 }
      let effs1 := effs ++ [SpaceEffect.recomputeActiveSpaces,
        SpaceEffect.reconcileSpaces, SpaceEffect.setScreenSpaces,
        SpaceEffect.finalizeSpaceChange]
      let r :=
        if st2.topology_relayout_pending then
          ({ st2 with topology_relayout_pending := false },
           effs1 ++ [SpaceEffect.forceRefreshAllWindows,
             SpaceEffect.updateLayout])
        else (st2, effs1)
      (r.1, r.2 ++ [SpaceEffect.maybeCommitTopology])

/-- **C7 (amended)**: applying a space-change notification whose vector is
identical to the currently-applied one is a no-op — no pipeline action
runs and the state is unchanged — unless a topology relayout is pending
OR the display-topology manager is churning or awaiting a commit (the
claim omitted the churn condition; see `C7_counterexample`). -/
theorem C7_duplicate_space_change_ignored (env : SpaceEnv) (st : SpaceRx)
    (spaces : List (Option Nat)) (hdup : spaces = st.screens)
    (hpend : st.topology_relayout_pending = false)
    (hchurn : st.churning_or_awaiting_commit = false) :
    handle_space_changed env st spaces = (st, []) := by
  unfold handle_space_changed
  rw [if_neg (by rw [hdup]; omega)]
  rw [if_pos ⟨hdup, by simp [hpend], by simp [hchurn]⟩]

/-- Witness for `C7_duplicate_space_change_ignored` on a concrete stable
state. -/
theorem C7_duplicate_space_change_ignored_witness :
    handle_space_changed ⟨fun _ => false⟩
      ⟨[some 1, some 2], false, false, false, none, [], false⟩
      [some 1, some 2]
      = (⟨[some 1, some 2], false, false, false, none, [], false⟩, []) :=
  C7_duplicate_space_change_ignored ⟨fun _ => false⟩
    ⟨[some 1, some 2], false, false, false, none, [], false⟩
    [some 1, some 2] rfl rfl rfl

/-- **C7 counterexample**: with the topology manager churning (and no
topology relayout pending), a space vector identical to the
currently-applied one is NOT ignored: the handler re-runs the full
space-change pipeline (recompute active spaces, reconcile display history,
set screen spaces, finalize the space change, attempt a topology commit),
contradicting the claim that only a pending topology relayout prevents the
no-op. -/
theorem C7_counterexample :
    (⟨[some 1], false, true, false, none, [], false⟩ : SpaceRx).screens
        = [some 1]
    ∧ (⟨[some 1], false, true, false, none, [], false⟩ : SpaceRx).topology_relayout_pending
        = false
    ∧ (handle_space_changed ⟨fun _ => false⟩
        ⟨[some 1], false, true, false, none, [], false⟩ [some 1]).2
        = [SpaceEffect.recomputeActiveSpaces, SpaceEffect.reconcileSpaces,
           SpaceEffect.setScreenSpaces, SpaceEffect.finalizeSpaceChange,
           SpaceEffect.maybeCommitTopology]
    ∧ (handle_space_changed ⟨fun _ => false⟩
        ⟨[some 1], false, true, false, none, [], false⟩ [some 1]).2 ≠ [] := by
  have heffs : (handle_space_changed ⟨fun _ => false⟩
      ⟨[some 1], false, true, false, none, [], false⟩ [some 1]).2
      = [SpaceEffect.recomputeActiveSpaces, SpaceEffect.reconcileSpaces,
         SpaceEffect.setScreenSpaces, SpaceEffect.finalizeSpaceChange,
         SpaceEffect.maybeCommitTopology] := rfl
  exact ⟨rfl, rfl, heffs, by rw [heffs]; simp⟩

/-! ## Churn quarantine and topology-commit reconciliation
(`Reactor::maybe_quarantine_during_churn`,
`Reactor::reconcile_windows_after_topology_commit`)

`DisplayTopologyManager` itself (`actor/reactor/display_topology.rs`) is
not among the sources.  Modelled from the spec and constrained by the call
sites in `reactor.rs`: the quarantine entry points
(`quarantine_resync()`, `quarantine_destroyed()`, `quarantine_appeared()`)
take no event payload, so the manager can only record per-kind counters —
the window-server id of a quarantined event never reaches it.  The event
type is reduced to the variants relevant to the claim: the three
quarantined kinds, one further non-allow-listed kind, and representative
allow-listed kinds from `should_process_during_churn`. -/

/-- The churn-related state of `DisplayTopologyManager` as observable from
the `reactor.rs` call sites. -/
structure TopologyMgr where
  churning_or_awaiting_commit : Bool
  quarantined_resync : Nat
  quarantined_destroyed : Nat
  quarantined_appeared : Nat
deriving DecidableEq

/-- A reduced `Event` with the variants relevant to the churn-quarantine
claim. -/
inductive ChurnEvent where
  | windowServerAppeared (wsid : Nat) (sp : Nat)
  | windowServerDestroyed (wsid : Nat) (sp : Nat)
  | resyncAppForWindow (wsid : Nat)
  | windowFrameChanged (wid : Nat)
  | command
  | spaceChanged (spaces : List (Option Nat))
  | displayChurnBegin
  | displayChurnEnd
deriving DecidableEq

/-- `Reactor::should_process_during_churn` restricted to the reduced event
type (the allow-list of structural events). -/
def should_process_during_churn : ChurnEvent → Bool
  | .command | .spaceChanged _ | .displayChurnBegin | .displayChurnEnd => true
  | _ => false

/-- The reactor state observed by the quarantine path: the topology
manager plus the window-server ids currently applied to reactor
bookkeeping. -/
structure ChurnRx where
  mgr : TopologyMgr
  known_windows : List Nat
deriving DecidableEq

/-- `Reactor::maybe_quarantine_during_churn`: while churning or awaiting
commit, any event outside the allow-list is dropped (`true`), and for the
three window-server kinds the topology manager's per-kind counter is
bumped — nothing else of the event is retained. -/
def maybe_quarantine_during_churn (st : ChurnRx) (e : ChurnEvent) :
    ChurnRx × Bool :=
  if ¬ st.mgr.churning_or_awaiting_commit then (st, false)
  else if should_process_during_churn e then (st, false)
  else
    match e with
    | .resyncAppForWindow _ =>
      ({ st with mgr := { st.mgr with
          quarantined_resync := st.mgr.quarantined_resync + 1 } }, true)
    | .windowServerDestroyed _ _ =>
      ({ st with mgr := { st.mgr with
          quarantined_destroyed := st.mgr.quarantined_destroyed + 1 } }, true)
    | .windowServerAppeared _ _ =>
      ({ st with mgr := { st.mgr with
          quarantined_appeared := st.mgr.quarantined_appeared + 1 } }, true)
    | _ => (st, true)

/-- Modelled from the spec: the direct application of a window-server
appear/destroy event to reactor bookkeeping
(`SpaceEventHandler::handle_window_server_appeared/destroyed`, reduced to
the known-window id set). -/
def apply_event_direct (st : ChurnRx) : ChurnEvent → ChurnRx
  | .windowServerAppeared wsid _ =>
    { st with known_windows :=
        if wsid ∈ st.known_windows then st.known_windows
        else wsid :: st.known_windows }
  | .windowServerDestroyed wsid _ =>
    { st with known_windows := st.known_windows.filter (fun w => w ≠ wsid) }
  | _ => st

/-- `Reactor::handle_loop_event`, reduced: quarantine first; apply the
event only when it was not quarantined.  The Bool reports whether the
event was applied. -/
def churn_handle_loop_event (st : ChurnRx) (e : ChurnEvent) :
    ChurnRx × Bool :=
  let q := maybe_quarantine_during_churn st e
  if q.2 then (q.1, false) else (apply_event_direct q.1 e, true)

/-- One window of the post-churn authoritative snapshot. -/
structure SnapshotWindow where
  wsid : Nat
  layer : Int
deriving DecidableEq

/-- The OS environment consulted by
`reconcile_windows_after_topology_commit`. -/
structure ChurnEnv where
  window_space : Nat → Option Nat
  space_is_user : Nat → Bool
  window_still_exists : Nat → Bool
  window_spaces : Nat → List Nat

/-- A synthesized appear/destroy handler call. -/
inductive SynthCall where
  | appeared (wsid : Nat) (sp : Nat)
  | destroyed (wsid : Nat) (sp : Nat)
deriving DecidableEq

/-- The filter applied to each id of the appeared set difference: drop
windows that are not in the snapshot, are not on layer 0, have no current
space, or whose space is neither active nor a user space. -/
def appear_call? (env : ChurnEnv) (active : List Nat)
    (post : List SnapshotWindow) (w : Nat) : Option SynthCall :=
  match post.find? (fun sw => sw.wsid = w) with
  | none => none
  | some sw =>
    if sw.layer ≠ 0 then none
    else
      match env.window_space w with
      | none => none
      | some sp =>
        if ¬ active.contains sp ∧ ¬ env.space_is_user sp then none
        else some (SynthCall.appeared w sp)

/-- The filter applied to each id of the disappeared set difference: skip
windows that still exist on a user/active space; resolve the space from
the window or the first known space. -/
def destroy_call? (env : ChurnEnv) (active : List Nat)
    (firstKnown : Option Nat) (w : Nat) : Option SynthCall :=
  let still := env.window_still_exists w
  let inUserOrActive := (env.window_spaces w).any
    (fun sp => env.space_is_user sp || active.contains sp)
  if still ∧ inUserOrActive then none
  else
    match env.window_space w with
    | some sid => some (SynthCall.destroyed w sid)
    | none =>
      match firstKnown with
      | some sid => some (SynthCall.destroyed w sid)
      | none => none

/-- The appear calls synthesized by
`reconcile_windows_after_topology_commit`: one per element of
`post \ pre` that passes the filters. -/
def synth_appeared_calls (env : ChurnEnv) (active : List Nat)
    (pre : List Nat) (post : List SnapshotWindow) : List SynthCall :=
  (((post.map SnapshotWindow.wsid).filter
      (fun w => ¬ pre.contains w))).filterMap (appear_call? env active post)

/-- The destroy calls synthesized by
`reconcile_windows_after_topology_commit`: one per element of
`pre \ post` that passes the filters. -/
def synth_destroyed_calls (env : ChurnEnv) (active : List Nat)
    (pre : List Nat) (post : List SnapshotWindow)
    (firstKnown : Option Nat) : List SynthCall :=
  (pre.filter (fun w => ¬ (post.map SnapshotWindow.wsid).contains w)).filterMap
    (destroy_call? env active firstKnown)

/-- All handler calls synthesized by
`reconcile_windows_after_topology_commit`. -/
def reconcile_synth_calls (env : ChurnEnv) (active : List Nat)
    (pre : List Nat) (post : List SnapshotWindow)
    (firstKnown : Option Nat) : List SynthCall :=
  synth_appeared_calls env active pre post
    ++ synth_destroyed_calls env active pre post firstKnown

/-- Number of synthesized appear calls for a given window-server id. -/
def countAppearedFor (w : Nat) (calls : List SynthCall) : Nat :=
  (calls.filter (fun c =>
    match c with
    | SynthCall.appeared wid _ => wid = w
    | _ => false)).length

/-- Number of synthesized destroy calls for a given window-server id. -/
def countDestroyedFor (w : Nat) (calls : List SynthCall) : Nat :=
  (calls.filter (fun c =>
    match c with
    | SynthCall.destroyed wid _ => wid = w
    | _ => false)).length

/-- Predicate picking the synthesized appear calls for a window id. -/
def appearedPred (w : Nat) : SynthCall → Bool
  | SynthCall.appeared wid _ => wid = w
  | _ => false

/-- Predicate picking the synthesized destroy calls for a window id. -/
def destroyedPred (w : Nat) : SynthCall → Bool
  | SynthCall.destroyed wid _ => wid = w
  | _ => false

theorem appear_call?_shape {env : ChurnEnv} {active : List Nat}
    {post : List SnapshotWindow} {w : Nat} {c : SynthCall}
    (h : appear_call? env active post w = some c) :
    ∃ sp, c = SynthCall.appeared w sp := by
  unfold appear_call? at h
  repeat' split at h
  all_goals
    first
      | exact Option.noConfusion h
      | exact ⟨_, (Option.some_inj.mp h).symm⟩

theorem destroy_call?_shape {env : ChurnEnv} {active : List Nat}
    {firstKnown : Option Nat} {w : Nat} {c : SynthCall}
    (h : destroy_call? env active firstKnown w = some c) :
    ∃ sp, c = SynthCall.destroyed w sp := by
  unfold destroy_call? at h
  dsimp only at h
  repeat' split at h
  all_goals
    first
      | exact Option.noConfusion h
      | exact ⟨_, (Option.some_inj.mp h).symm⟩

theorem count_appeared_filterMap (env : ChurnEnv) (active : List Nat)
    (post : List SnapshotWindow) :
    ∀ (L : List Nat), L.Nodup → ∀ w : Nat,
      (L.filterMap (appear_call? env active post)).countP (appearedPred w)
        = if w ∈ L ∧ (appear_call? env active post w).isSome then 1 else 0 := by
  intro L
  induction L with
  | nil => intro _ w; simp
  | cons x xs ih =>
    intro hnd w
    obtain ⟨hxnotin, hnd'⟩ := List.nodup_cons.mp hnd
    rw [List.filterMap_cons]
    cases hx : appear_call? env active post x with
    | none =>
      rw [ih hnd' w]
      by_cases hwx : w = x
      · subst hwx
        simp [hx]
      · simp [List.mem_cons, hwx]
    | some c =>
      obtain ⟨sp, rfl⟩ := appear_call?_shape hx
      rw [List.countP_cons, ih hnd' w]
      by_cases hwx : w = x
      · subst hwx
        have hnot : ¬ (w ∈ xs ∧ (appear_call? env active post w).isSome) :=
          fun hcon => hxnotin hcon.1
        rw [if_neg hnot]
        simp [appearedPred, hx]
      · have hpred : appearedPred w (SynthCall.appeared x sp) = false := by
          simp [appearedPred]
          exact fun hxy => hwx hxy.symm
        rw [hpred]
        simp [List.mem_cons, hwx]

theorem count_destroyed_filterMap (env : ChurnEnv) (active : List Nat)
    (firstKnown : Option Nat) :
    ∀ (L : List Nat), L.Nodup → ∀ w : Nat,
      (L.filterMap (destroy_call? env active firstKnown)).countP
          (destroyedPred w)
        = if w ∈ L ∧ (destroy_call? env active firstKnown w).isSome then 1
          else 0 := by
  intro L
  induction L with
  | nil => intro _ w; simp
  | cons x xs ih =>
    intro hnd w
    obtain ⟨hxnotin, hnd'⟩ := List.nodup_cons.mp hnd
    rw [List.filterMap_cons]
    cases hx : destroy_call? env active firstKnown x with
    | none =>
      rw [ih hnd' w]
      by_cases hwx : w = x
      · subst hwx
        simp [hx]
      · simp [List.mem_cons, hwx]
    | some c =>
      obtain ⟨sp, rfl⟩ := destroy_call?_shape hx
      rw [List.countP_cons, ih hnd' w]
      by_cases hwx : w = x
      · subst hwx
        have hnot : ¬ (w ∈ xs ∧ (destroy_call? env active firstKnown w).isSome) :=
          fun hcon => hxnotin hcon.1
        rw [if_neg hnot]
        simp [destroyedPred, hx]
      · have hpred : destroyedPred w (SynthCall.destroyed x sp) = false := by
          simp [destroyedPred]
          exact fun hxy => hwx hxy.symm
        rw [hpred]
        simp [List.mem_cons, hwx]

theorem count_appeared_in_destroyed (env : ChurnEnv) (active : List Nat)
    (firstKnown : Option Nat) (w : Nat) :
    ∀ L : List Nat,
      (L.filterMap (destroy_call? env active firstKnown)).countP
        (appearedPred w) = 0 := by
  intro L
  induction L with
  | nil => simp
  | cons x xs ih =>
    rw [List.filterMap_cons]
    cases hx : destroy_call? env active firstKnown x with
    | none => exact ih
    | some c =>
      obtain ⟨sp, rfl⟩ := destroy_call?_shape hx
      rw [List.countP_cons]
      simp [appearedPred, ih]

theorem count_destroyed_in_appeared (env : ChurnEnv) (active : List Nat)
    (post : List SnapshotWindow) (w : Nat) :
    ∀ L : List Nat,
      (L.filterMap (appear_call? env active post)).countP
        (destroyedPred w) = 0 := by
  intro L
  induction L with
  | nil => simp
  | cons x xs ih =>
    rw [List.filterMap_cons]
    cases hx : appear_call? env active post x with
    | none => exact ih
    | some c =>
      obtain ⟨sp, rfl⟩ := appear_call?_shape hx
      rw [List.countP_cons]
      simp [destroyedPred, ih]

theorem countAppearedFor_eq_countP (w : Nat) (calls : List SynthCall) :
    countAppearedFor w calls = calls.countP (appearedPred w) := by
  unfold countAppearedFor
  rw [List.countP_eq_length_filter]
  congr 1

theorem countDestroyedFor_eq_countP (w : Nat) (calls : List SynthCall) :
    countDestroyedFor w calls = calls.countP (destroyedPred w) := by
  unfold countDestroyedFor
  rw [List.countP_eq_length_filter]
  congr 1

theorem mem_filter_not_contains (w : Nat) (L pre : List Nat) :
    w ∈ L.filter (fun v => ¬ pre.contains v) ↔ (w ∈ L ∧ w ∉ pre) := by
  simp [List.mem_filter, List.elem_iff]

/-- **C8**: while the display-topology manager is churning or awaiting a
commit, the reactor drops (does not apply) every window-server
appear/destroy/resync event, retaining only a per-kind quarantine counter
(the payload is discarded, so no buffered replay happens); recovery is by
snapshot diffing: after the commit,
`reconcile_windows_after_topology_commit` synthesizes exactly one appear
call for each window of the post-churn snapshot that was unknown before
and passes the layer/space filters, and exactly one destroy call for each
previously-known window absent from the snapshot that passes the
existence filter. -/
theorem C8_churn_quarantine_and_reconcile
    (st : ChurnRx) (a b : Nat)
    (env : ChurnEnv) (active : List Nat) (pre : List Nat)
    (post : List SnapshotWindow) (firstKnown : Option Nat) (w : Nat)
    (hchurn : st.mgr.churning_or_awaiting_commit = true)
    (hpre : pre.Nodup) (hpost : (post.map SnapshotWindow.wsid).Nodup) :
    churn_handle_loop_event st (ChurnEvent.windowServerAppeared a b)
      = ({ st with mgr := { st.mgr with
            quarantined_appeared := st.mgr.quarantined_appeared + 1 } }, false)
    ∧ churn_handle_loop_event st (ChurnEvent.windowServerDestroyed a b)
      = ({ st with mgr := { st.mgr with
            quarantined_destroyed := st.mgr.quarantined_destroyed + 1 } },
          false)
    ∧ churn_handle_loop_event st (ChurnEvent.resyncAppForWindow a)
      = ({ st with mgr := { st.mgr with
            quarantined_resync := st.mgr.quarantined_resync + 1 } }, false)
    ∧ countAppearedFor w (reconcile_synth_calls env active pre post firstKnown)
      = (if w ∈ post.map SnapshotWindow.wsid ∧ w ∉ pre
            ∧ (appear_call? env active post w).isSome then 1 else 0)
    ∧ countDestroyedFor w
          (reconcile_synth_calls env active pre post firstKnown)
      = (if w ∈ pre ∧ w ∉ post.map SnapshotWindow.wsid
            ∧ (destroy_call? env active firstKnown w).isSome then 1
         else 0) := by
  refine ⟨?_, ?_, ?_, ?_, ?_⟩
  · simp [churn_handle_loop_event, maybe_quarantine_during_churn, hchurn,
      should_process_during_churn]
  · simp [churn_handle_loop_event, maybe_quarantine_during_churn, hchurn,
      should_process_during_churn]
  · simp [churn_handle_loop_event, maybe_quarantine_during_churn, hchurn,
      should_process_during_churn]
  · have hLnd : ((post.map SnapshotWindow.wsid).filter
        (fun v => ¬ pre.contains v)).Nodup := hpost.filter _
    have hcount := count_appeared_filterMap env active post _ hLnd w
    have hmem := mem_filter_not_contains w (post.map SnapshotWindow.wsid) pre
    rw [countAppearedFor_eq_countP]
    unfold reconcile_synth_calls
    rw [List.countP_append]
    unfold synth_destroyed_calls
    rw [count_appeared_in_destroyed]
    unfold synth_appeared_calls
    rw [hcount, Nat.add_zero]
    by_cases hmain : w ∈ post.map SnapshotWindow.wsid ∧ w ∉ pre
        ∧ (appear_call? env active post w).isSome
    · rw [if_pos ⟨hmem.mpr ⟨hmain.1, hmain.2.1⟩, hmain.2.2⟩, if_pos hmain]
    · rw [if_neg (fun hcon =>
        hmain ⟨(hmem.mp hcon.1).1, (hmem.mp hcon.1).2, hcon.2⟩),
        if_neg hmain]
  · have hLnd : (pre.filter
        (fun v => ¬ (post.map SnapshotWindow.wsid).contains v)).Nodup :=
      hpre.filter _
    have hcount := count_destroyed_filterMap env active firstKnown _ hLnd w
    have hmem := mem_filter_not_contains w pre (post.map SnapshotWindow.wsid)
    rw [countDestroyedFor_eq_countP]
    unfold reconcile_synth_calls
    rw [List.countP_append]
    unfold synth_appeared_calls
    rw [count_destroyed_in_appeared]
    unfold synth_destroyed_calls
    rw [hcount, Nat.zero_add]
    by_cases hmain : w ∈ pre ∧ w ∉ post.map SnapshotWindow.wsid
        ∧ (destroy_call? env active firstKnown w).isSome
    · rw [if_pos ⟨hmem.mpr ⟨hmain.1, hmain.2.1⟩, hmain.2.2⟩, if_pos hmain]
    · rw [if_neg (fun hcon =>
        hmain ⟨(hmem.mp hcon.1).1, (hmem.mp hcon.1).2, hcon.2⟩),
        if_neg hmain]

theorem C8_churn_quarantine_and_reconcile_witness :
    churn_handle_loop_event ⟨⟨true, 4, 0, 0⟩, [3]⟩
        (ChurnEvent.windowServerAppeared 1 5)
      = (⟨⟨true, 4, 0, 1⟩, [3]⟩, false)
    ∧ churn_handle_loop_event ⟨⟨true, 4, 0, 0⟩, [3]⟩
        (ChurnEvent.windowServerDestroyed 1 5)
      = (⟨⟨true, 4, 1, 0⟩, [3]⟩, false)
    ∧ churn_handle_loop_event ⟨⟨true, 4, 0, 0⟩, [3]⟩
        (ChurnEvent.resyncAppForWindow 1)
      = (⟨⟨true, 5, 0, 0⟩, [3]⟩, false)
    ∧ countAppearedFor 2 (reconcile_synth_calls
        ⟨fun v => if v = 2 then some 9 else none, fun _ => true,
          fun _ => false, fun _ => []⟩ [9] [3] [⟨2, 0⟩] (some 9))
      = (if 2 ∈ ([⟨2, 0⟩] : List SnapshotWindow).map SnapshotWindow.wsid
            ∧ 2 ∉ ([3] : List Nat)
            ∧ (appear_call?
                ⟨fun v => if v = 2 then some 9 else none, fun _ => true,
                  fun _ => false, fun _ => []⟩ [9] [⟨2, 0⟩] 2).isSome
         then 1 else 0)
    ∧ countDestroyedFor 2 (reconcile_synth_calls
        ⟨fun v => if v = 2 then some 9 else none, fun _ => true,
          fun _ => false, fun _ => []⟩ [9] [3] [⟨2, 0⟩] (some 9))
      = (if 2 ∈ ([3] : List Nat)
            ∧ 2 ∉ ([⟨2, 0⟩] : List SnapshotWindow).map SnapshotWindow.wsid
            ∧ (destroy_call?
                ⟨fun v => if v = 2 then some 9 else none, fun _ => true,
                  fun _ => false, fun _ => []⟩ [9] (some 9) 2).isSome
         then 1 else 0) :=
  C8_churn_quarantine_and_reconcile ⟨⟨true, 4, 0, 0⟩, [3]⟩ 1 5
    ⟨fun v => if v = 2 then some 9 else none, fun _ => true,
      fun _ => false, fun _ => []⟩ [9] [3] [⟨2, 0⟩] (some 9) 2
    rfl (by decide) (by decide)

/-- **C8 counterexample**: while churning, two window-server appear events
with different window ids and spaces leave the reactor in the SAME state
(only the appeared-quarantine counter is bumped; the payload is
discarded), and neither is applied - so the claimed buffering and
post-commit replay of the quarantined events is impossible: applying the
two events directly would produce different states, but after quarantine
nothing distinguishes them. -/
theorem C8_counterexample :
    churn_handle_loop_event ⟨⟨true, 0, 0, 0⟩, []⟩
        (ChurnEvent.windowServerAppeared 1 5)
      = churn_handle_loop_event ⟨⟨true, 0, 0, 0⟩, []⟩
        (ChurnEvent.windowServerAppeared 2 6)
    ∧ (churn_handle_loop_event ⟨⟨true, 0, 0, 0⟩, []⟩
        (ChurnEvent.windowServerAppeared 1 5)).2 = false
    ∧ apply_event_direct ⟨⟨true, 0, 0, 0⟩, []⟩
        (ChurnEvent.windowServerAppeared 1 5)
      ≠ apply_event_direct ⟨⟨true, 0, 0, 0⟩, []⟩
        (ChurnEvent.windowServerAppeared 2 6) := by
  refine ⟨?_, ?_, ?_⟩ <;> decide

end Rift
